import Mathlib

/-!
# Verification of the goofys-injector mutation core (`mutate.go`)

A shallow embedding of `src/mutate.go`: the patch builders `addMount`,
`addBoathouseMount`, `addInstance`, `addBoathouseInstance` and the orchestrator
`mutate`, together with the Go standard-library functions they call
(`strings.ReplaceAll`, `strconv.ParseBool`, `path.Join`).

Conventions of the embedding:
* a Go `map[string]string` is an association list read with `List.lookup`
  (`none` is the `ok = false` answer of the two-valued map read);
* a Go function that can panic returns `Run α`;
* a Go `(value, error)` pair is kept as a pair, the error being `Option GoError`;
* `response.Patch` holds the list of operations that `json.Marshal` serialises
  (`none` is the nil byte slice of a response on which `Patch` was never set);
  `json.Marshal` does not fail on a list of maps from strings to strings and
  API structs, so its error branch is not part of the model;
* logging calls (`log.Printf`, `klog.Warningf`) have no effect on the result
  and are left out.
-/

set_option linter.dupNamespace false

namespace GoofysInjector

/-! ## Go runtime and standard library -/

/-- Go error values met in `mutate.go`: the syntax error of `strconv`, an error
of an external library, and an error wrapped by `fmt.Errorf` with `%w`. -/
inductive GoError where
  | syntaxError (fn : String) (str : String)
  | external (msg : String)
  | wrapped (msg : String) (cause : GoError)
  deriving DecidableEq, Repr

deriving instance DecidableEq for Except

/-- Result of running a Go function that may panic. -/
inductive Run (α : Type) where
  | panic (msg : String)
  | done (a : α)
  deriving DecidableEq, Repr

/-- `strings.ReplaceAll(s, old, new)` for one-byte `old` and `new`: every
occurrence of `old` is replaced by `new`. -/
def stringsReplaceAll (s : String) (old new : Char) : String :=
  String.mk (s.data.map fun c => if c = old then new else c)

/-- `strconv.ParseBool`: accepts 1, t, T, TRUE, true, True, 0, f, F, FALSE,
false, False; any other value is a syntax error. -/
def parseBool (str : String) : Except GoError Bool :=
  if str = "1" ∨ str = "t" ∨ str = "T" ∨ str = "true" ∨ str = "TRUE" ∨ str = "True" then
    .ok true
  else if str = "0" ∨ str = "f" ∨ str = "F" ∨ str = "false" ∨ str = "FALSE" ∨ str = "False" then
    .ok false
  else
    .error (.syntaxError "ParseBool" str)

/-- `fmt.Sprintf` of `%d` on an `int`. -/
def fmtInt (i : Int) : String := toString i

/-- Splits a path at every slash (the elements between slashes, empty ones kept). -/
def splitSlash : List Char → List (List Char)
  | [] => [[]]
  | c :: cs =>
    if c = '/' then [] :: splitSlash cs
    else
      match splitSlash cs with
      | [] => [[c]]
      | e :: es => (c :: e) :: es

/-- The backtracking loop of `path.Clean` on a `..` element: starting from the
write index `w`, move left while `w > dotdot` and the byte at `w` is not a slash. -/
def cleanBack (out : List Char) (dotdot : Nat) : Nat → Nat
  | 0 => 0
  | w + 1 =>
    if w + 1 > dotdot ∧ out.get? (w + 1) ≠ some '/' then cleanBack out dotdot w
    else w + 1

/-- One iteration of the main loop of `path.Clean`, on the path element `e`
that starts at the read index; the state is the output buffer and `dotdot`. -/
def cleanStep (rooted : Bool) (st : List Char × Nat) (e : List Char) : List Char × Nat :=
  let out := st.1
  let dotdot := st.2
  if e = [] then st
  else if e = ['.'] then st
  else if e = ['.', '.'] then
    if out.length > dotdot then
      (out.take (cleanBack out dotdot (out.length - 1)), dotdot)
    else if !rooted then
      let out1 := (if out.length > 0 then out ++ ['/'] else out) ++ ['.', '.']
      (out1, out1.length)
    else st
  else
    let out1 := if (rooted && out.length != 1) || (!rooted && out.length != 0)
      then out ++ ['/'] else out
    (out1 ++ e, dotdot)

/-- `path.Clean` of the Go standard library. -/
def pathClean (path : String) : String :=
  if path = "" then "."
  else
    let rooted := path.data.head? == some '/'
    let st0 : List Char × Nat := if rooted then (['/'], 1) else ([], 0)
    let out := ((splitSlash path.data).foldl (cleanStep rooted) st0).1
    if out.length = 0 then "." else String.mk out

/-- `path.Join` of the Go standard library: the empty string when all elements
are empty; otherwise the elements from the first non-empty one on are written
to a buffer with a slash between them, and the buffer is cleaned. -/
def pathJoin (elem : List String) : String :=
  if (elem.map String.length).sum = 0 then ""
  else
    let buf := elem.foldl
      (fun buf e =>
        if buf.length > 0 ∨ e ≠ "" then (if buf.length > 0 then buf ++ "/" else buf) ++ e
        else buf)
      ""
    pathClean buf

/-! ## Kubernetes API types (the fields `mutate.go` reads or writes) -/

/-- `v1.FlexVolumeSource`: driver and options. -/
structure FlexVolumeSource where
  Driver : String
  Options : List (String × String)
  deriving DecidableEq, Repr

/-- `v1.Volume` with the only volume source used here. -/
structure Volume where
  Name : String
  FlexVolume : Option FlexVolumeSource
  deriving DecidableEq, Repr

/-- `v1.VolumeMount`. -/
structure VolumeMount where
  Name : String
  MountPath : String
  deriving DecidableEq, Repr

/-- The `value` of a patch operation: a `v1.Volume` or a `v1.VolumeMount`. -/
inductive PatchValue where
  | volume (v : Volume)
  | volumeMount (m : VolumeMount)
  deriving DecidableEq, Repr

/-- One JSON Patch operation, the map with keys `op`, `path` and `value`. -/
structure PatchOp where
  op : String
  path : String
  value : PatchValue
  deriving DecidableEq, Repr

/-- `v1.Container` (name only). -/
structure Container where
  Name : String
  deriving DecidableEq, Repr

/-- `metav1.ObjectMeta`. -/
structure ObjectMeta where
  Name : String
  Namespace : String
  Annotations : List (String × String)
  Labels : List (String × String)
  deriving DecidableEq, Repr

/-- `v1.PodSpec`. -/
structure PodSpec where
  Containers : List Container
  deriving DecidableEq, Repr

/-- `v1.Pod`. -/
structure Pod where
  ObjectMeta : ObjectMeta
  Spec : PodSpec
  deriving DecidableEq, Repr

/-- `v1beta1.AdmissionRequest`: the correlation UID and the raw object. -/
structure AdmissionRequest where
  UID : String
  Raw : String
  deriving DecidableEq, Repr

/-- `metav1.Status`. -/
structure Status where
  Status : String
  deriving DecidableEq, Repr

/-- `v1beta1.AdmissionResponse`. -/
structure AdmissionResponse where
  UID : String
  Allowed : Bool
  Result : Option Status
  Patch : Option (List PatchOp)
  PatchType : Option String
  AuditAnnotations : Option (List (String × String))
  deriving DecidableEq, Repr

/-- `v1beta1.PatchTypeJSONPatch`. -/
def PatchTypeJSONPatch : String := "JSONPatch"

/-- `metav1.StatusSuccess`. -/
def StatusSuccess : String := "Success"

/-- Modelled from the spec: the `Instance` type of the instance registry, whose
declaration is not in `mutate.go` (section 3: Name, ExternalUrl, Short). -/
structure Instance where
  Name : String
  ExternalUrl : String
  Short : String
  deriving DecidableEq, Repr

/-- A value stored in the data of a secret (`interface{}`): a string or
anything else. -/
inductive SecretValue where
  | str (s : String)
  | other
  deriving DecidableEq, Repr

/-- The secret returned by the secret store: its `Data` map. -/
structure Secret where
  Data : List (String × SecretValue)
  deriving DecidableEq, Repr

/-! ## `mutate.go` -/

/-- The constant `defaultRegion`. -/
def defaultRegion : String := "us-east-1"

/-- `cleanName`: `strings.ReplaceAll(name, "_", "-")`. -/
def cleanName (name : String) : String :=
  stringsReplaceAll name '_' '-'

/-- `addMount`: the credential-embedding patch builder. -/
def addMount (name accessKey secretKey endpoint region bucket mountPath : String) :
    List PatchOp :=
  let patches : List PatchOp := []
  let patches := patches ++ [
    { op := "add"
      path := "/spec/volumes/-"
      value := .volume
        { Name := name
          FlexVolume := some
            { Driver := "informaticslab/goofys-flex-volume"
              Options := [
                ("bucket", bucket),
                ("endpoint", endpoint),
                ("region", region),
                ("access-key", accessKey),
                ("secret-key", secretKey),
                ("uid", "1000"),
                ("gid", "100")] } } }]
  let patches := patches ++ [
    { op := "add"
      path := "/spec/containers/0/volumeMounts/-"
      value := .volumeMount { Name := name, MountPath := mountPath } }]
  patches

/-- `addBoathouseMount`: the secret-reference patch builder. -/
def addBoathouseMount (name vaultPath endpoint region bucket mountPath : String)
    (containerIndex : Int) : List PatchOp :=
  let patches : List PatchOp := []
  let patches := patches ++ [
    { op := "add"
      path := "/spec/volumes/-"
      value := .volume
        { Name := name
          FlexVolume := some
            { Driver := "statcan.gc.ca/boathouse"
              Options := [
                ("bucket", bucket),
                ("endpoint", endpoint),
                ("region", region),
                ("vault-path", vaultPath),
                ("vault-ttl", "24h"),
                ("uid", "1000"),
                ("gid", "100")] } } }]
  let patches := patches ++ [
    { op := "add"
      path := "/spec/containers/" ++ fmtInt containerIndex ++ "/volumeMounts/-"
      value := .volumeMount { Name := name, MountPath := mountPath } }]
  patches

/-- The type assertion `creds.Data[key].(string)`: panics when the key is
missing (nil interface) or the value is not a string. -/
def assertString (data : List (String × SecretValue)) (key : String) : Run String :=
  match data.lookup key with
  | some (.str s) => .done s
  | some .other => .panic "interface conversion: interface {} is not string"
  | none => .panic "interface conversion: interface {} is nil, not string"

/-- `addInstance`: reads the credentials at `<mount>/keys/profile-<profile>`
through the secret store `vaultRead` and embeds them in the private and shared
mounts. A failed read gives no patches; a nil secret or a field that is not a
string panics. -/
def addInstance (vaultRead : String → Except GoError (Option Secret))
    (inst mount endpoint region profile base : String) : Run (List PatchOp) :=
  let patches : List PatchOp := []
  match vaultRead (mount ++ "/keys/profile-" ++ profile) with
  | .error _ => .done patches
  | .ok none => .panic "runtime error: invalid memory address or nil pointer dereference"
  | .ok (some creds) =>
    match assertString creds.Data "accessKeyId" with
    | .panic msg => .panic msg
    | .done accessKey =>
      match assertString creds.Data "secretAccessKey" with
      | .panic msg => .panic msg
      | .done secretKey =>
        let patches := patches ++ addMount (inst ++ "-private") accessKey secretKey
          endpoint region profile (pathJoin [base, "private"])
        let patches := patches ++ addMount (inst ++ "-shared") accessKey secretKey
          endpoint region "shared" (pathJoin [base, "shared"])
        .done patches

/-- `addBoathouseInstance`: the private and the shared mount of one instance,
both with the vault path `<mount>/keys/profile-<profile>`. -/
def addBoathouseInstance (inst mount endpoint region profile base : String)
    (containerIndex : Int) : List PatchOp :=
  let patches : List PatchOp := []
  let vaultPath := mount ++ "/keys/profile-" ++ profile
  let patches := patches ++ addBoathouseMount (inst ++ "-private") vaultPath
    endpoint region profile (pathJoin [base, "private"]) containerIndex
  let patches := patches ++ addBoathouseMount (inst ++ "-shared") vaultPath
    endpoint region "shared" (pathJoin [base, "shared"]) containerIndex
  patches

/-- The default response built at the start of `mutate`. -/
def defaultResponse (request : AdmissionRequest) : AdmissionResponse :=
  { UID := request.UID
    Allowed := true
    Result := none
    Patch := none
    PatchType := some PatchTypeJSONPatch
    AuditAnnotations := none }

/-- The loop of `mutate` over the instance registry. -/
def instancePatches (instances : List Instance) (profile : String) (containerIndex : Int) :
    List PatchOp :=
  instances.foldl
    (fun patches inst =>
      patches ++ addBoathouseInstance
        (stringsReplaceAll inst.Name '_' '-')
        inst.Name
        inst.ExternalUrl
        defaultRegion
        profile
        ("/home/jovyan/minio/" ++ inst.Short)
        containerIndex)
    []

/-- `mutate`. The JSON decoder of the pod (`json.Unmarshal` into `v1.Pod`) is
the parameter `unmarshal`, the global registry `instances` is a parameter.
The result is the returned response with the returned error, or a panic. -/
def mutate (unmarshal : String → Except GoError Pod) (instances : List Instance)
    (request : AdmissionRequest) : Run (AdmissionResponse × Option GoError) :=
  let response := defaultResponse request
  match unmarshal request.Raw with
  | .error err => .done (response, some (.wrapped "unable to decode Pod " err))
  | .ok pod =>
    let inject := false
    let containerIndex : Int := 0
    let profile := cleanName pod.ObjectMeta.Namespace
    -- the injection annotation
    let parsed : Except GoError Bool :=
      match pod.ObjectMeta.Annotations.lookup "data.statcan.gc.ca/inject-boathouse" with
      | some val =>
        match parseBool val with
        | .error err => .error (.wrapped
            "unable to decode data.statcan.gc.ca/boathouse-inject annotation " err)
        | .ok bval => .ok bval
      | none => .ok inject
    match parsed with
    | .error err => .done (response, some err)
    | .ok inject =>
      -- the Argo workflow label: index of the container that gets the mounts
      let resolved : Run Int :=
        match pod.ObjectMeta.Labels.lookup "workflows.argoproj.io/workflow" with
        | some _ =>
          match pod.Spec.Containers with
          | [] => .panic "runtime error: index out of range [0] with length 0"
          | first :: _ => if first.Name = "wait" then .done 1 else .done 0
        | none => .done containerIndex
      match resolved with
      | .panic msg => .panic msg
      | .done containerIndex =>
        -- the Protected B override
        let inject :=
          match pod.ObjectMeta.Labels.lookup "data.statcan.gc.ca/classification" with
          | some val => if val = "protected-b" then false else inject
          | none => inject
        if inject then
          let patches := instancePatches instances profile containerIndex
          .done ({ response with
            AuditAnnotations := some [("goofys-injector", "Added MinIO volume mounts")]
            Patch := some patches
            Result := some { Status := StatusSuccess } }, none)
        else
          .done (response, none)

/-- The index of the container that receives the mounts, when `mutate` does
not panic: 1 for a workflow pod whose first container is named wait, else 0. -/
def resolvedIndex (pod : Pod) : Int :=
  if (pod.ObjectMeta.Labels.lookup "workflows.argoproj.io/workflow").isSome ∧
      pod.Spec.Containers.head?.map Container.Name = some "wait" then 1 else 0

/-! ## Example data -/

/-- A registry of two instances, the first with an underscore in its name. -/
def exampleInstances : List Instance :=
  [ { Name := "minio_standard", ExternalUrl := "https://minio-standard.example.ca",
      Short := "standard" },
    { Name := "minio-premium", ExternalUrl := "https://minio-premium.example.ca",
      Short := "premium" } ]

/-- A pod with the given namespace, annotations, labels and container names. -/
def examplePod (ns : String) (annotations labels : List (String × String))
    (containers : List String) : Pod :=
  { ObjectMeta := { Name := "notebook-0", Namespace := ns, Annotations := annotations,
                    Labels := labels }
    Spec := { Containers := containers.map Container.mk } }

/-- A request; its raw payload is read only by the decoder. -/
def exampleRequest : AdmissionRequest := { UID := "uid-1", Raw := "raw" }

/-- A notebook pod that asks for injection, in namespace team_a. -/
def injectPod : Pod :=
  examplePod "team_a" [("data.statcan.gc.ca/inject-boathouse", "true")] [] ["notebook"]

/-- A workflow pod that asks for injection and whose first container is wait. -/
def workflowPod : Pod :=
  examplePod "team_a" [("data.statcan.gc.ca/inject-boathouse", "true")]
    [("workflows.argoproj.io/workflow", "wf")] ["wait", "main"]

/-- A Protected B pod that asks for injection. -/
def protectedPod : Pod :=
  examplePod "team_a" [("data.statcan.gc.ca/inject-boathouse", "true")]
    [("data.statcan.gc.ca/classification", "protected-b")] ["notebook"]

/-- A pod without any annotation. -/
def plainPod : Pod :=
  examplePod "team_a" [] [("data.statcan.gc.ca/classification", "unclassified")] ["notebook"]

/-- A pod whose injection annotation is not a boolean. -/
def malformedPod : Pod :=
  examplePod "team_a" [("data.statcan.gc.ca/inject-boathouse", "yes")] [] ["notebook"]

/-- A workflow pod with an empty container list. -/
def emptyWorkflowPod : Pod :=
  examplePod "team_a" [("data.statcan.gc.ca/inject-boathouse", "true")]
    [("workflows.argoproj.io/workflow", "wf")] []

/-- The arguments of one call of `addInstance`. -/
structure InstanceCall where
  inst : String
  mount : String
  endpoint : String
  region : String
  profile : String
  base : String
  deriving DecidableEq, Repr

/-- A secret store that holds credentials for the standard instance only;
every other read fails. -/
def exampleVault (path : String) : Except GoError (Option Secret) :=
  if path = "minio_standard/keys/profile-team-a" then
    .ok (some { Data := [("accessKeyId", .str "AKIAEXAMPLE"),
                         ("secretAccessKey", .str "example-secret")] })
  else .error (.external "connection refused")

/-- The call of `addInstance` for the standard instance and profile team-a. -/
def standardCall : InstanceCall :=
  { inst := "minio-standard", mount := "minio_standard",
    endpoint := "https://minio-standard.example.ca", region := "us-east-1",
    profile := "team-a", base := "/home/jovyan/minio/standard" }

/-- The call of `addInstance` for the premium instance and profile team-a. -/
def premiumCall : InstanceCall :=
  { inst := "minio-premium", mount := "minio-premium",
    endpoint := "https://minio-premium.example.ca", region := "us-east-1",
    profile := "team-a", base := "/home/jovyan/minio/premium" }

/-- The patches of a call of `addInstance`, the empty list for a run that panics. -/
def patchesOf (vaultRead : String → Except GoError (Option Secret)) (c : InstanceCall) :
    List PatchOp :=
  match addInstance vaultRead c.inst c.mount c.endpoint c.region c.profile c.base with
  | .done ops => ops
  | .panic _ => []

/-- An instance whose short identifier is empty. -/
def emptyShortInstance : Instance :=
  { Name := "minio_standard", ExternalUrl := "https://minio-standard.example.ca", Short := "" }

/-- An instance whose short identifier ends with a slash. -/
def slashShortInstance : Instance :=
  { Name := "minio_standard", ExternalUrl := "https://minio-standard.example.ca",
    Short := "standard/" }

/-- A registry of two instances whose names differ only by an underscore
against a hyphen. -/
def clashingInstances : List Instance :=
  [ { Name := "minio_a", ExternalUrl := "https://minio-a1.example.ca", Short := "a1" },
    { Name := "minio-a", ExternalUrl := "https://minio-a2.example.ca", Short := "a2" } ]

/-- Modelled from the spec: the `server` receiver of the methods of `mutate.go`,
whose declaration is not in the file. The only field that the methods read is
the client of the secret store, `vault`, used through its read by path
(sections 5 and 9). -/
structure server where
  vault : String → Except GoError (Option Secret)

/-- The method `mutate` with its receiver `s`. Its body names no field of `s`:
`s` is only the receiver of the call of `addBoathouseInstance`, which in turn
only calls `addBoathouseMount`, and neither reads a field of `s`. -/
def server.mutate (_ : server) (unmarshal : String → Except GoError Pod)
    (instances : List Instance) (request : AdmissionRequest) :
    Run (AdmissionResponse × Option GoError) :=
  GoofysInjector.mutate unmarshal instances request

/-- A secret store on which every read fails. -/
def failingVault (_ : String) : Except GoError (Option Secret) :=
  .error (.external "connection refused")

/-- A Protected B pod whose injection annotation is not a boolean. -/
def protectedMalformedPod : Pod :=
  examplePod "team_a" [("data.statcan.gc.ca/inject-boathouse", "yes")]
    [("data.statcan.gc.ca/classification", "protected-b")] ["notebook"]

/-! ## Auxiliary lemmas -/

theorem foldl_append_start {α β : Type} (f : α → List β) (l : List α) (acc : List β) :
    l.foldl (fun a x => a ++ f x) acc = acc ++ l.foldl (fun a x => a ++ f x) [] := by
  induction l generalizing acc with
  | nil => simp
  | cons x xs ih =>
    simp only [List.foldl_cons, List.nil_append]
    rw [ih (acc ++ f x), ih (f x), List.append_assoc]

theorem instancePatches_nil (profile : String) (idx : Int) :
    instancePatches [] profile idx = [] := rfl

theorem instancePatches_cons (inst : Instance) (rest : List Instance) (profile : String)
    (idx : Int) :
    instancePatches (inst :: rest) profile idx =
      addBoathouseInstance (stringsReplaceAll inst.Name '_' '-') inst.Name inst.ExternalUrl
        defaultRegion profile ("/home/jovyan/minio/" ++ inst.Short) idx
      ++ instancePatches rest profile idx := by
  unfold instancePatches
  rw [List.foldl_cons, foldl_append_start]
  simp

theorem addBoathouseInstance_length (inst mount endpoint region profile base : String)
    (idx : Int) :
    (addBoathouseInstance inst mount endpoint region profile base idx).length = 4 := rfl

theorem instancePatches_length (instances : List Instance) (profile : String) (idx : Int) :
    (instancePatches instances profile idx).length = 4 * instances.length := by
  induction instances with
  | nil => rfl
  | cons inst rest ih =>
    rw [instancePatches_cons, List.length_append, addBoathouseInstance_length, ih,
      List.length_cons]
    omega

theorem instancePatches_getElem? (instances : List Instance) (profile : String) (idx : Int)
    (k r : Nat) (hk : k < instances.length) (hr : r < 4) :
    (instancePatches instances profile idx)[4 * k + r]? =
      (addBoathouseInstance (stringsReplaceAll (instances.get ⟨k, hk⟩).Name '_' '-')
        (instances.get ⟨k, hk⟩).Name (instances.get ⟨k, hk⟩).ExternalUrl defaultRegion profile
        ("/home/jovyan/minio/" ++ (instances.get ⟨k, hk⟩).Short) idx)[r]? := by
  induction instances generalizing k with
  | nil => simp at hk
  | cons inst rest ih =>
    rw [instancePatches_cons]
    cases k with
    | zero =>
      rw [List.getElem?_append_left (by rw [addBoathouseInstance_length]; omega)]
      simp
    | succ k =>
      rw [List.getElem?_append_right (by rw [addBoathouseInstance_length]; omega),
        addBoathouseInstance_length]
      have hk2 : k < rest.length := by simpa using hk
      have h4 : 4 * (k + 1) + r - 4 = 4 * k + r := by omega
      rw [h4, ih k hk2]
      rfl

/-- Every operation of the registry loop comes from one instance. -/
theorem mem_instancePatches (instances : List Instance) (profile : String) (idx : Int)
    (op : PatchOp) (h : op ∈ instancePatches instances profile idx) :
    ∃ inst ∈ instances, op ∈ addBoathouseInstance (stringsReplaceAll inst.Name '_' '-')
      inst.Name inst.ExternalUrl defaultRegion profile
      ("/home/jovyan/minio/" ++ inst.Short) idx := by
  induction instances with
  | nil => simp [instancePatches_nil] at h
  | cons inst rest ih =>
    rw [instancePatches_cons, List.mem_append] at h
    rcases h with h | h
    · exact ⟨inst, List.mem_cons_self _ _, h⟩
    · obtain ⟨i, hi, hop⟩ := ih h
      exact ⟨i, List.mem_cons_of_mem _ hi, hop⟩

/-- The response of `mutate` on a pod that is injected. -/
theorem mutate_inject (unmarshal : String → Except GoError Pod) (instances : List Instance)
    (request : AdmissionRequest) (pod : Pod) (val : String)
    (hdec : unmarshal request.Raw = .ok pod)
    (hcont : pod.Spec.Containers ≠ [])
    (hann : pod.ObjectMeta.Annotations.lookup "data.statcan.gc.ca/inject-boathouse" = some val)
    (hval : parseBool val = .ok true)
    (hcls : pod.ObjectMeta.Labels.lookup "data.statcan.gc.ca/classification"
      ≠ some "protected-b") :
    mutate unmarshal instances request =
      .done ({ UID := request.UID
               Allowed := true
               Result := some { Status := "Success" }
               Patch := some (instancePatches instances (cleanName pod.ObjectMeta.Namespace)
                 (resolvedIndex pod))
               PatchType := some "JSONPatch"
               AuditAnnotations := some [("goofys-injector", "Added MinIO volume mounts")] },
             none) := by
  obtain ⟨first, others, hcs⟩ := List.exists_cons_of_ne_nil hcont
  have hinj : (match pod.ObjectMeta.Labels.lookup "data.statcan.gc.ca/classification" with
      | some v => if v = "protected-b" then false else true
      | none => true) = true := by
    cases hl : pod.ObjectMeta.Labels.lookup "data.statcan.gc.ca/classification" with
    | none => rfl
    | some v =>
      have : v ≠ "protected-b" := fun h => hcls (by rw [hl, h])
      simp [this]
  unfold mutate
  simp only [hdec, hann, hval, hcs, hinj, resolvedIndex]
  cases hw : pod.ObjectMeta.Labels.lookup "workflows.argoproj.io/workflow" with
  | none => simp [hinj, defaultResponse, PatchTypeJSONPatch, StatusSuccess]
  | some w =>
    by_cases hn : first.Name = "wait"
    · simp [hn, hinj, defaultResponse, PatchTypeJSONPatch, StatusSuccess]
    · simp [hn, hinj, defaultResponse, PatchTypeJSONPatch, StatusSuccess]

/-- The response of `mutate` on a pod that is not injected. -/
theorem mutate_no_inject (unmarshal : String → Except GoError Pod) (instances : List Instance)
    (request : AdmissionRequest) (pod : Pod)
    (hdec : unmarshal request.Raw = .ok pod)
    (hcont : pod.Spec.Containers ≠ [])
    (hann : pod.ObjectMeta.Annotations.lookup "data.statcan.gc.ca/inject-boathouse" = none ∨
      (∃ val, pod.ObjectMeta.Annotations.lookup "data.statcan.gc.ca/inject-boathouse" = some val ∧
        parseBool val = .ok false) ∨
      ((∃ val, pod.ObjectMeta.Annotations.lookup "data.statcan.gc.ca/inject-boathouse" = some val ∧
        parseBool val = .ok true) ∧
       pod.ObjectMeta.Labels.lookup "data.statcan.gc.ca/classification" = some "protected-b")) :
    mutate unmarshal instances request = .done (defaultResponse request, none) := by
  obtain ⟨first, others, hcs⟩ := List.exists_cons_of_ne_nil hcont
  unfold mutate
  rcases hann with h | ⟨val, h, hv⟩ | ⟨⟨val, h, hv⟩, hc⟩
  · simp only [hdec, h, hcs]
    cases hw : pod.ObjectMeta.Labels.lookup "workflows.argoproj.io/workflow" <;>
      cases hl : pod.ObjectMeta.Labels.lookup "data.statcan.gc.ca/classification" <;>
      by_cases hn : first.Name = "wait" <;> simp [hn]
  · simp only [hdec, h, hv, hcs]
    cases hw : pod.ObjectMeta.Labels.lookup "workflows.argoproj.io/workflow" <;>
      cases hl : pod.ObjectMeta.Labels.lookup "data.statcan.gc.ca/classification" <;>
      by_cases hn : first.Name = "wait" <;> simp [hn]
  · simp only [hdec, h, hv, hcs, hc]
    cases hw : pod.ObjectMeta.Labels.lookup "workflows.argoproj.io/workflow" <;>
      by_cases hn : first.Name = "wait" <;> simp [hn]

/-- The response of `mutate` on a pod whose annotation does not parse. -/
theorem mutate_parse_error (unmarshal : String → Except GoError Pod)
    (instances : List Instance) (request : AdmissionRequest) (pod : Pod) (val : String)
    (err : GoError)
    (hdec : unmarshal request.Raw = .ok pod)
    (hann : pod.ObjectMeta.Annotations.lookup "data.statcan.gc.ca/inject-boathouse" = some val)
    (hval : parseBool val = .error err) :
    mutate unmarshal instances request =
      .done (defaultResponse request, some (.wrapped
        "unable to decode data.statcan.gc.ca/boathouse-inject annotation " err)) := by
  unfold mutate
  simp only [hdec, hann, hval]

/-! ## The orchestrator: injection decision -/

/-- C1: classification override. For every request whose decoded pod has at
least one container and carries the classification label protected-b, and for
every registry, `mutate` returns a response with no patch and no audit
annotation (and no status), whatever the injection annotation is; it returns it
without error whenever the annotation is absent or a valid boolean, in
particular when it is true. -/
theorem mutate_protected_b_override (unmarshal : String → Except GoError Pod)
    (instances : List Instance) (request : AdmissionRequest) (pod : Pod)
    (hdec : unmarshal request.Raw = .ok pod)
    (hcont : pod.Spec.Containers ≠ [])
    (hcls : pod.ObjectMeta.Labels.lookup "data.statcan.gc.ca/classification"
      = some "protected-b") :
    ∃ resp err, mutate unmarshal instances request = .done (resp, err) ∧
      resp.Patch = none ∧ resp.AuditAnnotations = none ∧ resp.Result = none ∧
      ((∀ val, pod.ObjectMeta.Annotations.lookup "data.statcan.gc.ca/inject-boathouse"
          = some val → ∃ b, parseBool val = .ok b) → err = none) := by
  cases hann : pod.ObjectMeta.Annotations.lookup "data.statcan.gc.ca/inject-boathouse" with
  | none =>
    exact ⟨_, _, mutate_no_inject unmarshal instances request pod hdec hcont (Or.inl hann),
      rfl, rfl, rfl, fun _ => rfl⟩
  | some val =>
    cases hval : parseBool val with
    | error e =>
      refine ⟨_, _, mutate_parse_error unmarshal instances request pod val e hdec hann hval,
        rfl, rfl, rfl, fun h => ?_⟩
      obtain ⟨b, hb⟩ := h val rfl
      rw [hval] at hb
      cases hb
    | ok b =>
      cases b with
      | false =>
        exact ⟨_, _, mutate_no_inject unmarshal instances request pod hdec hcont
          (Or.inr (Or.inl ⟨val, hann, hval⟩)), rfl, rfl, rfl, fun _ => rfl⟩
      | true =>
        exact ⟨_, _, mutate_no_inject unmarshal instances request pod hdec hcont
          (Or.inr (Or.inr ⟨⟨val, hann, hval⟩, hcls⟩)), rfl, rfl, rfl, fun _ => rfl⟩

/-- Witness of C1: a Protected B pod whose annotation is true, with two
instances in the registry. -/
theorem mutate_protected_b_override_witness :
    protectedPod.Spec.Containers ≠ [] ∧
    protectedPod.ObjectMeta.Labels.lookup "data.statcan.gc.ca/classification"
      = some "protected-b" ∧
    protectedPod.ObjectMeta.Annotations.lookup "data.statcan.gc.ca/inject-boathouse"
      = some "true" ∧
    ∃ resp err, mutate (fun _ => .ok protectedPod) exampleInstances exampleRequest
        = .done (resp, err) ∧
      resp.Patch = none ∧ resp.AuditAnnotations = none ∧ resp.Result = none ∧
      ((∀ val, protectedPod.ObjectMeta.Annotations.lookup
          "data.statcan.gc.ca/inject-boathouse" = some val → ∃ b, parseBool val = .ok b)
        → err = none) :=
  ⟨by decide, by decide, by decide,
    mutate_protected_b_override (fun _ => .ok protectedPod) exampleInstances exampleRequest
      protectedPod rfl (by decide) (by decide)⟩

/-- C3: a pod (with at least one container) that does not carry the injection
annotation gets, without error, a response with no patch, no audit annotation
and no status, whatever its labels, namespace, containers and the registry. -/
theorem mutate_without_annotation (unmarshal : String → Except GoError Pod)
    (instances : List Instance) (request : AdmissionRequest) (pod : Pod)
    (hdec : unmarshal request.Raw = .ok pod)
    (hcont : pod.Spec.Containers ≠ [])
    (hann : pod.ObjectMeta.Annotations.lookup "data.statcan.gc.ca/inject-boathouse" = none) :
    ∃ resp, mutate unmarshal instances request = .done (resp, none) ∧
      resp.Patch = none ∧ resp.AuditAnnotations = none ∧ resp.Result = none :=
  ⟨_, mutate_no_inject unmarshal instances request pod hdec hcont (Or.inl hann),
    rfl, rfl, rfl⟩

/-- Witness of C3: a pod without annotations. -/
theorem mutate_without_annotation_witness :
    plainPod.Spec.Containers ≠ [] ∧
    plainPod.ObjectMeta.Annotations.lookup "data.statcan.gc.ca/inject-boathouse" = none ∧
    ∃ resp, mutate (fun _ => .ok plainPod) exampleInstances exampleRequest
        = .done (resp, none) ∧
      resp.Patch = none ∧ resp.AuditAnnotations = none ∧ resp.Result = none :=
  ⟨by decide, by decide,
    mutate_without_annotation (fun _ => .ok plainPod) exampleInstances exampleRequest
      plainPod rfl (by decide) (by decide)⟩

/-! ## The orchestrator: layout of the patch -/

/-- The index chosen by `mutate` is 0 or 1, so the pointer of a volume mount is
one of two strings. -/
theorem mountPointer_resolvedIndex (pod : Pod) :
    "/spec/containers/" ++ fmtInt (resolvedIndex pod) ++ "/volumeMounts/-" =
      if (pod.ObjectMeta.Labels.lookup "workflows.argoproj.io/workflow").isSome ∧
          pod.Spec.Containers.head?.map Container.Name = some "wait"
      then "/spec/containers/1/volumeMounts/-" else "/spec/containers/0/volumeMounts/-" := by
  unfold resolvedIndex
  split
  · rfl
  · rfl

/-- C2: for a pod (with at least one container) whose annotation is true and
whose classification label is absent or different from protected-b, and a
registry of N instances, the patch of `mutate` has exactly 4 * N operations,
and for the k-th instance the operations at positions 4k, 4k+1, 4k+2, 4k+3
are the private volume addition, the private volume-mount addition, the shared
volume addition and the shared volume-mount addition, in this order. -/
theorem mutate_patch_layout (unmarshal : String → Except GoError Pod)
    (instances : List Instance) (request : AdmissionRequest) (pod : Pod)
    (hdec : unmarshal request.Raw = .ok pod)
    (hcont : pod.Spec.Containers ≠ [])
    (hann : pod.ObjectMeta.Annotations.lookup "data.statcan.gc.ca/inject-boathouse"
      = some "true")
    (hcls : pod.ObjectMeta.Labels.lookup "data.statcan.gc.ca/classification"
      ≠ some "protected-b") :
    ∃ resp ops pointer, mutate unmarshal instances request = .done (resp, none) ∧
      resp.Patch = some ops ∧
      ops.length = 4 * instances.length ∧
      (pointer = "/spec/containers/0/volumeMounts/-" ∨
        pointer = "/spec/containers/1/volumeMounts/-") ∧
      ∀ (k : Nat) (hk : k < instances.length),
        ops[4 * k]? = some
          { op := "add", path := "/spec/volumes/-",
            value := .volume
              { Name := stringsReplaceAll (instances.get ⟨k, hk⟩).Name '_' '-' ++ "-private"
                FlexVolume := some
                  { Driver := "statcan.gc.ca/boathouse"
                    Options := [
                      ("bucket", cleanName pod.ObjectMeta.Namespace),
                      ("endpoint", (instances.get ⟨k, hk⟩).ExternalUrl),
                      ("region", "us-east-1"),
                      ("vault-path", (instances.get ⟨k, hk⟩).Name ++ "/keys/profile-"
                        ++ cleanName pod.ObjectMeta.Namespace),
                      ("vault-ttl", "24h"),
                      ("uid", "1000"),
                      ("gid", "100")] } } } ∧
        ops[4 * k + 1]? = some
          { op := "add", path := pointer,
            value := .volumeMount
              { Name := stringsReplaceAll (instances.get ⟨k, hk⟩).Name '_' '-' ++ "-private"
                MountPath := pathJoin
                  ["/home/jovyan/minio/" ++ (instances.get ⟨k, hk⟩).Short, "private"] } } ∧
        ops[4 * k + 2]? = some
          { op := "add", path := "/spec/volumes/-",
            value := .volume
              { Name := stringsReplaceAll (instances.get ⟨k, hk⟩).Name '_' '-' ++ "-shared"
                FlexVolume := some
                  { Driver := "statcan.gc.ca/boathouse"
                    Options := [
                      ("bucket", "shared"),
                      ("endpoint", (instances.get ⟨k, hk⟩).ExternalUrl),
                      ("region", "us-east-1"),
                      ("vault-path", (instances.get ⟨k, hk⟩).Name ++ "/keys/profile-"
                        ++ cleanName pod.ObjectMeta.Namespace),
                      ("vault-ttl", "24h"),
                      ("uid", "1000"),
                      ("gid", "100")] } } } ∧
        ops[4 * k + 3]? = some
          { op := "add", path := pointer,
            value := .volumeMount
              { Name := stringsReplaceAll (instances.get ⟨k, hk⟩).Name '_' '-' ++ "-shared"
                MountPath := pathJoin
                  ["/home/jovyan/minio/" ++ (instances.get ⟨k, hk⟩).Short, "shared"] } } := by
  refine ⟨_, _, "/spec/containers/" ++ fmtInt (resolvedIndex pod) ++ "/volumeMounts/-",
    mutate_inject unmarshal instances request pod "true" hdec hcont hann (by decide) hcls,
    rfl, instancePatches_length _ _ _, ?_, ?_⟩
  · rw [mountPointer_resolvedIndex]
    split
    · exact Or.inr rfl
    · exact Or.inl rfl
  · intro k hk
    have h0 := instancePatches_getElem? instances (cleanName pod.ObjectMeta.Namespace)
      (resolvedIndex pod) k 0 hk (by omega)
    have h1 := instancePatches_getElem? instances (cleanName pod.ObjectMeta.Namespace)
      (resolvedIndex pod) k 1 hk (by omega)
    have h2 := instancePatches_getElem? instances (cleanName pod.ObjectMeta.Namespace)
      (resolvedIndex pod) k 2 hk (by omega)
    have h3 := instancePatches_getElem? instances (cleanName pod.ObjectMeta.Namespace)
      (resolvedIndex pod) k 3 hk (by omega)
    rw [Nat.add_zero] at h0
    exact ⟨h0.trans rfl, h1.trans rfl, h2.trans rfl, h3.trans rfl⟩

/-- Witness of C2: the notebook pod of namespace team_a with the example
registry of two instances. -/
theorem mutate_patch_layout_witness :
    injectPod.Spec.Containers ≠ [] ∧
    injectPod.ObjectMeta.Annotations.lookup "data.statcan.gc.ca/inject-boathouse"
      = some "true" ∧
    injectPod.ObjectMeta.Labels.lookup "data.statcan.gc.ca/classification"
      ≠ some "protected-b" ∧
    ∃ resp ops, mutate (fun _ => .ok injectPod) exampleInstances exampleRequest
        = .done (resp, none) ∧
      resp.Patch = some ops ∧ ops.length = 8 := by
  refine ⟨by decide, by decide, by decide, ?_⟩
  obtain ⟨resp, ops, _, hm, hp, hl, _⟩ :=
    mutate_patch_layout (fun _ => .ok injectPod) exampleInstances exampleRequest injectPod
      rfl (by decide) (by decide) (by decide)
  exact ⟨resp, ops, hm, hp, hl⟩

/-- C4: container-index resolution. For an injecting pod (annotation parsing to
true, not protected-b, at least one container), every volume-mount addition of
the patch has the pointer of container 1 when the pod carries the workflow
label and its first container is named wait, and the pointer of container 0 in
every other case. -/
theorem mutate_mount_container_index (unmarshal : String → Except GoError Pod)
    (instances : List Instance) (request : AdmissionRequest) (pod : Pod) (val : String)
    (hdec : unmarshal request.Raw = .ok pod)
    (hcont : pod.Spec.Containers ≠ [])
    (hann : pod.ObjectMeta.Annotations.lookup "data.statcan.gc.ca/inject-boathouse" = some val)
    (hval : parseBool val = .ok true)
    (hcls : pod.ObjectMeta.Labels.lookup "data.statcan.gc.ca/classification"
      ≠ some "protected-b") :
    ∃ resp ops, mutate unmarshal instances request = .done (resp, none) ∧
      resp.Patch = some ops ∧
      ∀ op ∈ ops, ∀ m, op.value = .volumeMount m →
        op.path =
          if (pod.ObjectMeta.Labels.lookup "workflows.argoproj.io/workflow").isSome ∧
              pod.Spec.Containers.head?.map Container.Name = some "wait"
          then "/spec/containers/1/volumeMounts/-"
          else "/spec/containers/0/volumeMounts/-" := by
  refine ⟨_, _, mutate_inject unmarshal instances request pod val hdec hcont hann hval hcls,
    rfl, ?_⟩
  intro op hop m hm
  obtain ⟨inst, _, hin⟩ := mem_instancePatches _ _ _ op hop
  rw [← mountPointer_resolvedIndex]
  simp only [addBoathouseInstance, addBoathouseMount, List.nil_append, List.cons_append,
    List.mem_cons, List.mem_singleton, List.not_mem_nil, or_false] at hin
  rcases hin with h | h | h | h
  · rw [h] at hm; cases hm
  · rw [h]
  · rw [h] at hm; cases hm
  · rw [h]

/-- Witness of C4: the workflow pod whose first container is wait; the patch
has a volume-mount addition, and all of them target container 1. -/
theorem mutate_mount_container_index_witness :
    workflowPod.Spec.Containers ≠ [] ∧
    parseBool "true" = .ok true ∧
    ∃ resp ops, mutate (fun _ => .ok workflowPod) exampleInstances exampleRequest
        = .done (resp, none) ∧
      resp.Patch = some ops ∧
      ∀ op ∈ ops, ∀ m, op.value = .volumeMount m →
        op.path =
          if (workflowPod.ObjectMeta.Labels.lookup "workflows.argoproj.io/workflow").isSome ∧
              workflowPod.Spec.Containers.head?.map Container.Name = some "wait"
          then "/spec/containers/1/volumeMounts/-"
          else "/spec/containers/0/volumeMounts/-" :=
  ⟨by decide, by decide,
    mutate_mount_container_index (fun _ => .ok workflowPod) exampleInstances exampleRequest
      workflowPod "true" rfl (by decide) (by decide) (by decide) (by decide)⟩

/-- C5: on a workflow pod whose container list is empty the first-container
lookup of `mutate` is out of range: the run panics instead of returning a
response with container index 0. -/
theorem mutate_empty_containers_panics :
    emptyWorkflowPod.Spec.Containers = [] ∧
    mutate (fun _ => .ok emptyWorkflowPod) exampleInstances exampleRequest
      = .panic "runtime error: index out of range [0] with length 0" := by
  decide

/-! ## The orchestrator: errors and the fixed fields of the response -/

/-- The values that `parseBool` rejects are those outside its twelve spellings. -/
theorem parseBool_error_of_not_mem (val : String)
    (hval : val ∉ ["1", "t", "T", "TRUE", "true", "True",
      "0", "f", "F", "FALSE", "false", "False"]) :
    parseBool val = .error (.syntaxError "ParseBool" val) := by
  simp only [List.mem_cons, List.mem_singleton, List.not_mem_nil, or_false, not_or] at hval
  obtain ⟨h1, h2, h3, h4, h5, h6, h7, h8, h9, h10, h11, h12⟩ := hval
  simp [parseBool, h1, h2, h3, h4, h5, h6, h7, h8, h9, h10, h11, h12]

/-- C6: malformed annotation. For every pod whose injection annotation is
present with a value that is not one of the boolean spellings, `mutate` returns
an error (the wrapped syntax error of the annotation), and the response
returned with it has no patch, no audit annotation and no status; this holds
whatever the labels and the containers are. -/
theorem mutate_malformed_annotation (unmarshal : String → Except GoError Pod)
    (instances : List Instance) (request : AdmissionRequest) (pod : Pod) (val : String)
    (hdec : unmarshal request.Raw = .ok pod)
    (hann : pod.ObjectMeta.Annotations.lookup "data.statcan.gc.ca/inject-boathouse" = some val)
    (hval : val ∉ ["1", "t", "T", "TRUE", "true", "True",
      "0", "f", "F", "FALSE", "false", "False"]) :
    ∃ resp, mutate unmarshal instances request =
        .done (resp, some (.wrapped
          "unable to decode data.statcan.gc.ca/boathouse-inject annotation "
          (.syntaxError "ParseBool" val))) ∧
      resp.Patch = none ∧ resp.AuditAnnotations = none ∧ resp.Result = none :=
  ⟨_, mutate_parse_error unmarshal instances request pod val _ hdec hann
    (parseBool_error_of_not_mem val hval), rfl, rfl, rfl⟩

/-- Witness of C6: the annotation value yes. -/
theorem mutate_malformed_annotation_witness :
    malformedPod.ObjectMeta.Annotations.lookup "data.statcan.gc.ca/inject-boathouse"
      = some "yes" ∧
    ∃ resp, mutate (fun _ => .ok malformedPod) exampleInstances exampleRequest =
        .done (resp, some (.wrapped
          "unable to decode data.statcan.gc.ca/boathouse-inject annotation "
          (.syntaxError "ParseBool" "yes"))) ∧
      resp.Patch = none ∧ resp.AuditAnnotations = none ∧ resp.Result = none :=
  ⟨by decide,
    mutate_malformed_annotation (fun _ => .ok malformedPod) exampleInstances exampleRequest
      malformedPod "yes" rfl (by decide) (by decide)⟩

/-- C7: whenever `mutate` returns (with or without an error), the response has
allowed = true, the uid of the request and the patch type JSONPatch; and the
only runs that do not return are those of a decoded workflow pod with an empty
container list. -/
theorem mutate_response_fixed_fields (unmarshal : String → Except GoError Pod)
    (instances : List Instance) (request : AdmissionRequest) :
    (∀ resp err, mutate unmarshal instances request = .done (resp, err) →
      resp.Allowed = true ∧ resp.UID = request.UID ∧ resp.PatchType = some "JSONPatch") ∧
    (∀ msg, mutate unmarshal instances request = .panic msg →
      ∃ pod, unmarshal request.Raw = .ok pod ∧ pod.Spec.Containers = [] ∧
        (pod.ObjectMeta.Labels.lookup "workflows.argoproj.io/workflow").isSome) := by
  constructor
  · intro resp err h
    unfold mutate at h
    simp only at h
    repeat' split at h
    all_goals first
      | (cases h; exact ⟨rfl, rfl, rfl⟩)
      | cases h
  · intro msg h
    cases hdec : unmarshal request.Raw with
    | error e => simp [mutate, hdec] at h
    | ok pod =>
      refine ⟨pod, rfl, ?_⟩
      cases hw : pod.ObjectMeta.Labels.lookup "workflows.argoproj.io/workflow" with
      | none =>
        exfalso
        unfold mutate at h
        simp only [hdec, hw] at h
        repeat' split at h
        all_goals cases h
      | some w =>
        cases hc : pod.Spec.Containers with
        | nil => exact ⟨rfl, rfl⟩
        | cons first rest =>
          exfalso
          unfold mutate at h
          simp only [hdec, hw, hc] at h
          repeat' split at h
          all_goals first
            | (cases h; done)
            | (cases h
               rename_i hq
               split at hq <;> cases hq)

/-- Witness of C7: a request whose payload does not decode, a request with a
malformed annotation and an injected request all return such a response. -/
theorem mutate_response_fixed_fields_witness :
    (∃ resp err, mutate (fun _ => .error (.external "unexpected end of JSON input"))
        exampleInstances exampleRequest = .done (resp, some err) ∧
      resp.Allowed = true ∧ resp.UID = "uid-1" ∧ resp.PatchType = some "JSONPatch") ∧
    (∃ resp err, mutate (fun _ => .ok malformedPod) exampleInstances exampleRequest
        = .done (resp, some err) ∧
      resp.Allowed = true ∧ resp.UID = "uid-1" ∧ resp.PatchType = some "JSONPatch") ∧
    (∃ resp, mutate (fun _ => .ok injectPod) exampleInstances exampleRequest
        = .done (resp, none) ∧
      resp.Allowed = true ∧ resp.UID = "uid-1" ∧ resp.PatchType = some "JSONPatch") :=
  ⟨⟨_, _, rfl, (mutate_response_fixed_fields
      (fun _ => .error (.external "unexpected end of JSON input"))
      exampleInstances exampleRequest).1 _ _ rfl⟩,
   ⟨_, _, rfl, (mutate_response_fixed_fields (fun _ => .ok malformedPod)
      exampleInstances exampleRequest).1 _ _ rfl⟩,
   ⟨_, rfl, (mutate_response_fixed_fields (fun _ => .ok injectPod)
      exampleInstances exampleRequest).1 _ _ rfl⟩⟩

/-! ## Profile normalisation -/

theorem utf8ByteSize_go_replace (cs : List Char) :
    String.utf8ByteSize.go (cs.map fun c => if c = '_' then '-' else c)
      = String.utf8ByteSize.go cs := by
  induction cs with
  | nil => rfl
  | cons c cs ih =>
    simp only [List.map_cons, String.utf8ByteSize.go, ih]
    by_cases hc : c = '_'
    · subst hc; rfl
    · simp [hc]

/-- C8: profile normalisation. `cleanName ns` has the length of `ns` (in
characters and in bytes), contains no underscore and is `ns` with every
underscore replaced by a hyphen (team_a gives team-a); and in the patch of
`mutate` for an injecting pod of namespace `ns`, the private volume of
each instance has the bucket option `cleanName ns` and every volume has a
vault-path option that ends with /keys/profile- followed by `cleanName ns`. -/
theorem cleanName_profile :
    (∀ ns : String,
      (cleanName ns).length = ns.length ∧
      (cleanName ns).utf8ByteSize = ns.utf8ByteSize ∧
      '_' ∉ (cleanName ns).data ∧
      ∀ i : Nat, (cleanName ns).data[i]? =
        (ns.data[i]?).map fun c => if c = '_' then '-' else c) ∧
    cleanName "team_a" = "team-a" ∧
    (∀ (unmarshal : String → Except GoError Pod) (instances : List Instance)
        (request : AdmissionRequest) (pod : Pod) (val : String),
      unmarshal request.Raw = .ok pod →
      pod.Spec.Containers ≠ [] →
      pod.ObjectMeta.Annotations.lookup "data.statcan.gc.ca/inject-boathouse" = some val →
      parseBool val = .ok true →
      pod.ObjectMeta.Labels.lookup "data.statcan.gc.ca/classification" ≠ some "protected-b" →
      ∃ resp ops, mutate unmarshal instances request = .done (resp, none) ∧
        resp.Patch = some ops ∧
        (∀ k : Nat, k < instances.length → ∃ v fv inst,
          ops[4 * k]? = some { op := "add", path := "/spec/volumes/-", value := .volume v } ∧
          v.Name = inst ++ "-private" ∧ v.FlexVolume = some fv ∧
          fv.Options.lookup "bucket" = some (cleanName pod.ObjectMeta.Namespace)) ∧
        (∀ op ∈ ops, ∀ v, op.value = .volume v → ∃ fv mount,
          v.FlexVolume = some fv ∧
          fv.Options.lookup "vault-path"
            = some (mount ++ "/keys/profile-" ++ cleanName pod.ObjectMeta.Namespace))) := by
  refine ⟨fun ns => ⟨?_, ?_, ?_, ?_⟩, by decide, ?_⟩
  · exact List.length_map ns.data _
  · simp only [cleanName, stringsReplaceAll, String.utf8ByteSize]
    exact utf8ByteSize_go_replace ns.data
  · simp only [cleanName, stringsReplaceAll, List.mem_map, not_exists, not_and]
    intro c _ hc
    by_cases h : c = '_'
    · rw [if_pos h] at hc
      exact absurd hc (by decide)
    · rw [if_neg h] at hc
      exact h hc
  · intro i
    simp [cleanName, stringsReplaceAll]
  · intro unmarshal instances request pod val hdec hcont hann hval hcls
    refine ⟨_, _, mutate_inject unmarshal instances request pod val hdec hcont hann hval hcls,
      rfl, ?_, ?_⟩
    · intro k hk
      have h0 := instancePatches_getElem? instances (cleanName pod.ObjectMeta.Namespace)
        (resolvedIndex pod) k 0 hk (by omega)
      rw [Nat.add_zero] at h0
      exact ⟨_, _, _, h0.trans rfl, rfl, rfl, rfl⟩
    · intro op hop v hv
      obtain ⟨inst, _, hin⟩ := mem_instancePatches _ _ _ op hop
      simp only [addBoathouseInstance, addBoathouseMount, List.nil_append, List.cons_append,
        List.mem_cons, List.mem_singleton, List.not_mem_nil, or_false] at hin
      rcases hin with h | h | h | h
      · rw [h] at hv
        cases hv
        exact ⟨_, inst.Name, rfl, rfl⟩
      · rw [h] at hv; cases hv
      · rw [h] at hv
        cases hv
        exact ⟨_, inst.Name, rfl, rfl⟩
      · rw [h] at hv; cases hv

/-- Witness of C8: the notebook pod of namespace team_a; the first operation of
its patch is the private volume of the first instance, with bucket team-a. -/
theorem cleanName_profile_witness :
    ∃ resp ops, mutate (fun _ => .ok injectPod) exampleInstances exampleRequest
        = .done (resp, none) ∧
      resp.Patch = some ops ∧
      (∃ v fv inst,
        ops[0]? = some { op := "add", path := "/spec/volumes/-", value := .volume v } ∧
        v.Name = inst ++ "-private" ∧ v.FlexVolume = some fv ∧
        fv.Options.lookup "bucket" = some "team-a") := by
  obtain ⟨resp, ops, hm, hp, hb, _⟩ :=
    cleanName_profile.2.2 (fun _ => .ok injectPod) exampleInstances exampleRequest injectPod
      "true" rfl (by decide) (by decide) (by decide) (by decide)
  exact ⟨resp, ops, hm, hp, hb 0 (by decide)⟩

/-! ## The patch builders: pairing of volume and mount -/

/-- C9: name round trip. For all arguments, `addBoathouseMount` and `addMount`
return exactly two operations: an addition, at the pointer of the volume
list, of a volume named by the name argument, then an addition of a volume
mount with the same name (at the container of the given index, respectively
of index 0). -/
theorem addMount_name_round_trip
    (name vaultPath accessKey secretKey endpoint region bucket mountPath : String)
    (containerIndex : Int) :
    (∃ v m, addBoathouseMount name vaultPath endpoint region bucket mountPath containerIndex =
        [ { op := "add", path := "/spec/volumes/-", value := .volume v },
          { op := "add",
            path := "/spec/containers/" ++ fmtInt containerIndex ++ "/volumeMounts/-",
            value := .volumeMount m } ] ∧
      v.Name = name ∧ m.Name = name ∧ m.Name = v.Name) ∧
    (∃ v m, addMount name accessKey secretKey endpoint region bucket mountPath =
        [ { op := "add", path := "/spec/volumes/-", value := .volume v },
          { op := "add", path := "/spec/containers/0/volumeMounts/-",
            value := .volumeMount m } ] ∧
      v.Name = name ∧ m.Name = name ∧ m.Name = v.Name) :=
  ⟨⟨_, _, rfl, rfl, rfl, rfl⟩, ⟨_, _, rfl, rfl, rfl, rfl⟩⟩

/-- C10: ordering invariant of the patch. For every injecting pod and every
registry, a volume-mount addition at position j of the patch of `mutate` has
j > 0 and at position j - 1 stands the addition of a volume with the name of
the mount. -/
theorem mutate_volume_precedes_mount (unmarshal : String → Except GoError Pod)
    (instances : List Instance) (request : AdmissionRequest) (pod : Pod) (val : String)
    (hdec : unmarshal request.Raw = .ok pod)
    (hcont : pod.Spec.Containers ≠ [])
    (hann : pod.ObjectMeta.Annotations.lookup "data.statcan.gc.ca/inject-boathouse" = some val)
    (hval : parseBool val = .ok true)
    (hcls : pod.ObjectMeta.Labels.lookup "data.statcan.gc.ca/classification"
      ≠ some "protected-b") :
    ∃ resp ops, mutate unmarshal instances request = .done (resp, none) ∧
      resp.Patch = some ops ∧
      ∀ (j : Nat) (op : PatchOp) (m : VolumeMount),
        ops[j]? = some op → op.value = .volumeMount m →
        0 < j ∧ ∃ v, ops[j - 1]? = some
            { op := "add", path := "/spec/volumes/-", value := .volume v } ∧
          v.Name = m.Name := by
  refine ⟨_, _, mutate_inject unmarshal instances request pod val hdec hcont hann hval hcls,
    rfl, ?_⟩
  intro j op m hj hm
  have hlt : j < 4 * instances.length := by
    have := (List.getElem?_eq_some_iff.mp hj).1
    rwa [instancePatches_length] at this
  have hk : j / 4 < instances.length := by omega
  have hr : j % 4 < 4 := Nat.mod_lt _ (by decide)
  have hsplit : j = 4 * (j / 4) + j % 4 := (Nat.div_add_mod j 4).symm
  generalize j / 4 = k at hk hsplit
  generalize j % 4 = r at hr hsplit
  subst hsplit
  have key : ∀ r, r < 4 →
      (instancePatches instances (cleanName pod.ObjectMeta.Namespace)
        (resolvedIndex pod))[4 * k + r]? = _ :=
    fun r hr => instancePatches_getElem? instances _ _ k r hk hr
  rw [key r hr] at hj
  match r, hr with
  | 0, _ =>
    simp only [addBoathouseInstance, addBoathouseMount, List.nil_append, List.cons_append,
      List.getElem?_cons_zero, Option.some.injEq] at hj
    rw [← hj] at hm; cases hm
  | 1, _ =>
    simp only [addBoathouseInstance, addBoathouseMount, List.nil_append, List.cons_append,
      List.getElem?_cons_succ, List.getElem?_cons_zero, Option.some.injEq] at hj
    rw [← hj] at hm
    cases hm
    have h0 := key 0 (by omega)
    exact ⟨by omega, _, h0.trans rfl, rfl⟩
  | 2, _ =>
    simp only [addBoathouseInstance, addBoathouseMount, List.nil_append, List.cons_append,
      List.getElem?_cons_succ, List.getElem?_cons_zero, Option.some.injEq] at hj
    rw [← hj] at hm; cases hm
  | 3, _ =>
    simp only [addBoathouseInstance, addBoathouseMount, List.nil_append, List.cons_append,
      List.getElem?_cons_succ, List.getElem?_cons_zero, Option.some.injEq] at hj
    rw [← hj] at hm
    cases hm
    have h2 := key 2 (by omega)
    exact ⟨by omega, _, h2.trans rfl, rfl⟩

/-- Witness of C10: for the notebook pod of namespace team_a and the example
registry, the operation at position 1 is a volume mount, and the operation at
position 0 is the addition of the volume of the same name. -/
theorem mutate_volume_precedes_mount_witness :
    ∃ resp ops, mutate (fun _ => .ok injectPod) exampleInstances exampleRequest
        = .done (resp, none) ∧
      resp.Patch = some ops ∧
      ops[1]? = some
        { op := "add", path := "/spec/containers/0/volumeMounts/-",
          value := .volumeMount
            { Name := "minio-standard-private",
              MountPath := "/home/jovyan/minio/standard/private" } } ∧
      ∃ v, ops[1 - 1]? = some
          { op := "add", path := "/spec/volumes/-", value := .volume v } ∧
        v.Name = "minio-standard-private" := by
  obtain ⟨resp, ops, hm, hp, hall⟩ :=
    mutate_volume_precedes_mount (fun _ => .ok injectPod) exampleInstances exampleRequest
      injectPod "true" rfl (by decide) (by decide) (by decide) (by decide)
  have hm2 : mutate (fun _ => .ok injectPod) exampleInstances exampleRequest
      = .done ({ UID := "uid-1", Allowed := true, Result := some { Status := "Success" },
                 Patch := some (instancePatches exampleInstances "team-a" 0),
                 PatchType := some "JSONPatch",
                 AuditAnnotations := some [("goofys-injector", "Added MinIO volume mounts")] },
               none) := by decide
  rw [hm2] at hm
  cases hm
  cases hp
  have h1 : (instancePatches exampleInstances "team-a" 0)[1]? =
      some
        { op := "add", path := "/spec/containers/0/volumeMounts/-",
          value := .volumeMount
            { Name := "minio-standard-private",
              MountPath := "/home/jovyan/minio/standard/private" } } := by decide
  exact ⟨_, _, rfl, rfl, h1, (hall 1 _ _ h1 rfl).2⟩

/-! ## The credential-embedding variant: `addInstance` -/

/-- C11: when the read of the secret store succeeds but the record is nil,
lacks accessKeyId or secretAccessKey, or holds a value that is not a string,
`addInstance` panics (nil dereference or failed type assertion) instead of
returning no patches. -/
theorem addInstance_record_shape_panics :
    addInstance (fun _ => .ok none) "minio-standard" "minio_standard"
        "https://minio-standard.example.ca" "us-east-1" "team-a" "/home/jovyan/minio/standard"
      = .panic "runtime error: invalid memory address or nil pointer dereference" ∧
    addInstance (fun _ => .ok (some { Data := [("secretAccessKey", .str "example-secret")] }))
        "minio-standard" "minio_standard"
        "https://minio-standard.example.ca" "us-east-1" "team-a" "/home/jovyan/minio/standard"
      = .panic "interface conversion: interface {} is nil, not string" ∧
    addInstance (fun _ => .ok (some { Data := [("accessKeyId", .str "AKIAEXAMPLE")] }))
        "minio-standard" "minio_standard"
        "https://minio-standard.example.ca" "us-east-1" "team-a" "/home/jovyan/minio/standard"
      = .panic "interface conversion: interface {} is nil, not string" ∧
    addInstance (fun _ => .ok (some { Data := [("accessKeyId", .other),
          ("secretAccessKey", .str "example-secret")] }))
        "minio-standard" "minio_standard"
        "https://minio-standard.example.ca" "us-east-1" "team-a" "/home/jovyan/minio/standard"
      = .panic "interface conversion: interface {} is not string" := by
  decide

/-- A failed read of the secret store gives no patches. -/
theorem addInstance_of_read_error (vaultRead : String → Except GoError (Option Secret))
    (inst mount endpoint region profile base : String) (e : GoError)
    (h : vaultRead (mount ++ "/keys/profile-" ++ profile) = .error e) :
    addInstance vaultRead inst mount endpoint region profile base = .done [] := by
  unfold addInstance
  simp only [h]

/-- A read that returns both keys as strings gives the two embedded mounts. -/
theorem addInstance_of_credentials (vaultRead : String → Except GoError (Option Secret))
    (inst mount endpoint region profile base : String) (creds : Secret) (ak sk : String)
    (h : vaultRead (mount ++ "/keys/profile-" ++ profile) = .ok (some creds))
    (hak : creds.Data.lookup "accessKeyId" = some (.str ak))
    (hsk : creds.Data.lookup "secretAccessKey" = some (.str sk)) :
    addInstance vaultRead inst mount endpoint region profile base = .done
      (addMount (inst ++ "-private") ak sk endpoint region profile (pathJoin [base, "private"])
        ++ addMount (inst ++ "-shared") ak sk endpoint region "shared"
          (pathJoin [base, "shared"])) := by
  unfold addInstance
  simp only [h, assertString, hak, hsk, List.nil_append]

theorem length_flatMap_of_forall {α β : Type} (f : α → List β) (n : Nat) (l : List α)
    (h : ∀ a ∈ l, (f a).length = n) : (l.flatMap f).length = n * l.length := by
  induction l with
  | nil => simp
  | cons a l ih =>
    rw [List.flatMap_cons, List.length_append, h a (List.mem_cons_self _ _),
      ih (fun b hb => h b (List.mem_cons_of_mem _ hb)), List.length_cons]
    ring

/-- C12: partial-failure isolation of `addInstance`. A failed read of
`<mount>/keys/profile-<profile>` gives the empty patch list and no panic; a
read that returns string-typed accessKeyId and secretAccessKey gives exactly 4
operations (the private and the shared embedded mounts); hence the
concatenation over N calls of which one read fails and the others succeed has
exactly 4 * (N - 1) operations, the full sets of the other calls. -/
theorem addInstance_partial_failure (vaultRead : String → Except GoError (Option Secret)) :
    (∀ (inst mount endpoint region profile base : String) (e : GoError),
      vaultRead (mount ++ "/keys/profile-" ++ profile) = .error e →
      addInstance vaultRead inst mount endpoint region profile base = .done []) ∧
    (∀ (inst mount endpoint region profile base : String) (creds : Secret) (ak sk : String),
      vaultRead (mount ++ "/keys/profile-" ++ profile) = .ok (some creds) →
      creds.Data.lookup "accessKeyId" = some (.str ak) →
      creds.Data.lookup "secretAccessKey" = some (.str sk) →
      ∃ ops, addInstance vaultRead inst mount endpoint region profile base = .done ops ∧
        ops.length = 4 ∧
        ops = addMount (inst ++ "-private") ak sk endpoint region profile
            (pathJoin [base, "private"])
          ++ addMount (inst ++ "-shared") ak sk endpoint region "shared"
            (pathJoin [base, "shared"])) ∧
    (∀ (pre post : List InstanceCall) (failing : InstanceCall),
      (∃ e, vaultRead (failing.mount ++ "/keys/profile-" ++ failing.profile) = .error e) →
      (∀ c ∈ pre ++ post, ∃ creds ak sk,
        vaultRead (c.mount ++ "/keys/profile-" ++ c.profile) = .ok (some creds) ∧
        creds.Data.lookup "accessKeyId" = some (.str ak) ∧
        creds.Data.lookup "secretAccessKey" = some (.str sk)) →
      ∃ outs : InstanceCall → List PatchOp,
        (∀ c ∈ pre ++ failing :: post,
          addInstance vaultRead c.inst c.mount c.endpoint c.region c.profile c.base
            = .done (outs c)) ∧
        outs failing = [] ∧
        (∀ c ∈ pre ++ post, (outs c).length = 4) ∧
        ((pre ++ failing :: post).flatMap outs).length
          = 4 * ((pre ++ failing :: post).length - 1) ∧
        (pre ++ failing :: post).flatMap outs = (pre ++ post).flatMap outs) := by
  refine ⟨fun inst mount endpoint region profile base e h =>
      addInstance_of_read_error vaultRead inst mount endpoint region profile base e h,
    fun inst mount endpoint region profile base creds ak sk h hak hsk =>
      ⟨_, addInstance_of_credentials vaultRead inst mount endpoint region profile base
        creds ak sk h hak hsk, rfl, rfl⟩, ?_⟩
  intro pre post failing hfail hok
  obtain ⟨e, he⟩ := hfail
  have hf : addInstance vaultRead failing.inst failing.mount failing.endpoint failing.region
      failing.profile failing.base = .done [] :=
    addInstance_of_read_error vaultRead _ _ _ _ _ _ e he
  have hfo : patchesOf vaultRead failing = [] := by
    unfold patchesOf
    rw [hf]
  have hgood : ∀ c ∈ pre ++ post,
      addInstance vaultRead c.inst c.mount c.endpoint c.region c.profile c.base
        = .done (patchesOf vaultRead c) ∧ (patchesOf vaultRead c).length = 4 := by
    intro c hc
    obtain ⟨creds, ak, sk, h, hak, hsk⟩ := hok c hc
    have := addInstance_of_credentials vaultRead c.inst c.mount c.endpoint c.region
      c.profile c.base creds ak sk h hak hsk
    unfold patchesOf
    rw [this]
    exact ⟨rfl, rfl⟩
  have hcat : (pre ++ failing :: post).flatMap (patchesOf vaultRead)
      = (pre ++ post).flatMap (patchesOf vaultRead) := by
    simp [List.flatMap_append, List.flatMap_cons, hfo]
  refine ⟨patchesOf vaultRead, ?_, hfo, fun c hc => (hgood c hc).2, ?_, hcat⟩
  · intro c hc
    rw [List.mem_append, List.mem_cons] at hc
    rcases hc with hc | hc | hc
    · exact (hgood c (List.mem_append_left _ hc)).1
    · rw [hc, hfo]; exact hf
    · exact (hgood c (List.mem_append_right _ hc)).1
  · rw [hcat, length_flatMap_of_forall _ 4 _ (fun c hc => (hgood c hc).2)]
    simp

/-- Witness of C12: the read fails for the premium instance and succeeds for
the standard one; the two calls give 4 operations in all. -/
theorem addInstance_partial_failure_witness :
    (∃ e, exampleVault (premiumCall.mount ++ "/keys/profile-" ++ premiumCall.profile)
      = .error e) ∧
    ∃ outs : InstanceCall → List PatchOp,
      (∀ c ∈ [standardCall] ++ premiumCall :: [],
        addInstance exampleVault c.inst c.mount c.endpoint c.region c.profile c.base
          = .done (outs c)) ∧
      outs premiumCall = [] ∧
      (∀ c ∈ [standardCall] ++ [], (outs c).length = 4) ∧
      (([standardCall] ++ premiumCall :: []).flatMap outs).length
        = 4 * (([standardCall] ++ premiumCall :: []).length - 1) ∧
      ([standardCall] ++ premiumCall :: []).flatMap outs
        = ([standardCall] ++ []).flatMap outs :=
  ⟨⟨_, rfl⟩,
    (addInstance_partial_failure exampleVault).2.2 [standardCall] [] premiumCall ⟨_, rfl⟩
      (by
        intro c hc
        simp only [List.append_nil, List.mem_singleton] at hc
        subst hc
        exact ⟨_, _, _, rfl, rfl, rfl⟩)⟩

/-! ## The reference variant: `addBoathouseMount` and `addBoathouseInstance` -/

/-- C13: for all arguments, `addBoathouseMount` returns the two-element list
made of the addition, at the pointer of the volume list, of a FlexVolume named
`name` with driver statcan.gc.ca/boathouse and options bucket, endpoint,
region, vault-path, vault-ttl = 24h, uid = 1000, gid = 100, followed by the
addition, at the volume mounts of container `i` (written in decimal), of a
volume mount with name `name` and path `mountPath`. -/
theorem addBoathouseMount_spec (name vaultPath endpoint region bucket mountPath : String)
    (i : Int) :
    addBoathouseMount name vaultPath endpoint region bucket mountPath i =
      [ { op := "add", path := "/spec/volumes/-",
          value := .volume
            { Name := name
              FlexVolume := some
                { Driver := "statcan.gc.ca/boathouse"
                  Options := [("bucket", bucket), ("endpoint", endpoint), ("region", region),
                    ("vault-path", vaultPath), ("vault-ttl", "24h"), ("uid", "1000"),
                    ("gid", "100")] } } },
        { op := "add", path := "/spec/containers/" ++ fmtInt i ++ "/volumeMounts/-",
          value := .volumeMount { Name := name, MountPath := mountPath } } ] ∧
    (∀ n : Nat, fmtInt (Int.ofNat n) = Nat.repr n) ∧
    (∀ n : Nat, fmtInt (Int.negSucc n) = "-" ++ Nat.repr (n + 1)) ∧
    "/spec/containers/" ++ fmtInt 0 ++ "/volumeMounts/-" = "/spec/containers/0/volumeMounts/-" ∧
    "/spec/containers/" ++ fmtInt 1 ++ "/volumeMounts/-" = "/spec/containers/1/volumeMounts/-" ∧
    "/spec/containers/" ++ fmtInt 12 ++ "/volumeMounts/-"
      = "/spec/containers/12/volumeMounts/-" :=
  ⟨rfl, fun _ => rfl, fun _ => rfl, by decide, by decide, by decide⟩

/-! ### `path.Join` on clean rooted paths -/

theorem splitSlash_ne_nil (cs : List Char) : splitSlash cs ≠ [] := by
  cases cs with
  | nil => simp [splitSlash]
  | cons c cs =>
    unfold splitSlash
    split
    · simp
    · split <;> simp

theorem splitSlash_append_slash (xs ys : List Char) :
    splitSlash (xs ++ '/' :: ys) = splitSlash xs ++ splitSlash ys := by
  induction xs with
  | nil => simp [splitSlash]
  | cons c xs ih =>
    by_cases hc : c = '/'
    · simp [splitSlash, hc, ih]
    · have hne := splitSlash_ne_nil xs
      cases hs : splitSlash xs with
      | nil => exact absurd hs hne
      | cons e es =>
        simp only [List.cons_append, splitSlash, hc, if_false, List.append_eq, ih, hs]

theorem splitSlash_of_no_slash (cs : List Char) (h : '/' ∉ cs) : splitSlash cs = [cs] := by
  induction cs with
  | nil => rfl
  | cons c cs ih =>
    have hc : c ≠ '/' := fun hc => h (by simp [hc])
    have ht : '/' ∉ cs := fun ht => h (List.mem_cons_of_mem _ ht)
    simp [splitSlash, hc, ih ht]

theorem flatMap_splitSlash (cs : List Char) :
    (splitSlash cs).flatMap (fun e => '/' :: e) = '/' :: cs := by
  induction cs with
  | nil => simp [splitSlash]
  | cons c cs ih =>
    by_cases hc : c = '/'
    · simp [splitSlash, hc, ih]
    · cases hs : splitSlash cs with
      | nil => exact absurd hs (splitSlash_ne_nil cs)
      | cons e es =>
        rw [hs] at ih
        simp only [List.flatMap_cons, List.cons_append, List.cons.injEq, true_and] at ih
        simp [splitSlash, hc, hs, ih]

theorem cleanStep_real_rooted (out e : List Char) (hout : 2 ≤ out.length)
    (he : e ≠ [] ∧ e ≠ ['.'] ∧ e ≠ ['.', '.']) :
    cleanStep true (out, 1) e = (out ++ '/' :: e, 1) := by
  obtain ⟨h1, h2, h3⟩ := he
  have hl : out.length ≠ 1 := by omega
  simp [cleanStep, h1, h2, h3, hl]

theorem foldl_cleanStep_real (es : List (List Char)) (out : List Char) (hout : 2 ≤ out.length)
    (hes : ∀ e ∈ es, e ≠ [] ∧ e ≠ ['.'] ∧ e ≠ ['.', '.']) :
    es.foldl (cleanStep true) (out, 1) = (out ++ es.flatMap (fun e => '/' :: e), 1) := by
  induction es generalizing out with
  | nil => simp
  | cons e es ih =>
    rw [List.foldl_cons, cleanStep_real_rooted out e hout (hes e (List.mem_cons_self _ _)),
      ih _ (by simp; omega) (fun x hx => hes x (List.mem_cons_of_mem _ hx))]
    simp

theorem pathClean_rooted (t : List Char)
    (ht : ∀ e ∈ splitSlash t, e ≠ [] ∧ e ≠ ['.'] ∧ e ≠ ['.', '.']) :
    pathClean (String.mk ('/' :: t)) = String.mk ('/' :: t) := by
  have hne : String.mk ('/' :: t) ≠ "" := by
    intro h
    have := congrArg String.data h
    simp at this
  cases hs : splitSlash t with
  | nil => exact absurd hs (splitSlash_ne_nil t)
  | cons e es =>
    rw [hs] at ht
    obtain ⟨h1, h2, h3⟩ := ht e (List.mem_cons_self _ _)
    have hflat := flatMap_splitSlash t
    rw [hs, List.flatMap_cons] at hflat
    have hlen : 2 ≤ ('/' :: e).length := by
      cases e with
      | nil => exact absurd rfl h1
      | cons c e => simp
    have hfold := foldl_cleanStep_real es ('/' :: e) hlen
      (fun x hx => ht x (List.mem_cons_of_mem _ hx))
    unfold pathClean
    have hhead : (('/' :: t).head? == some '/') = true := by simp
    have hsplit : splitSlash ('/' :: t) = [] :: e :: es := by simp [splitSlash, hs]
    have hstep0 : cleanStep true (['/'], 1) [] = (['/'], 1) := by simp [cleanStep]
    have hstep1 : cleanStep true (['/'], 1) e = ('/' :: e, 1) := by
      simp [cleanStep, h1, h2, h3]
    simp only [hne, if_false, hhead, if_true, hsplit, List.foldl_cons, hstep0, hstep1, hfold,
      hflat]
    simp


theorem pathJoin_rooted (s : List Char) (leaf : String)
    (hs : ∀ e ∈ splitSlash s, e ≠ [] ∧ e ≠ ['.'] ∧ e ≠ ['.', '.'])
    (hleaf : '/' ∉ leaf.data ∧ leaf.data ≠ [] ∧ leaf.data ≠ ['.'] ∧ leaf.data ≠ ['.', '.']) :
    pathJoin [String.mk ('/' :: s), leaf] = String.mk ('/' :: s) ++ "/" ++ leaf := by
  obtain ⟨hl0, hl1, hl2, hl3⟩ := hleaf
  have hbuf : String.mk ('/' :: s) ++ "/" ++ leaf
      = String.mk ('/' :: (s ++ '/' :: leaf.data)) := by
    apply String.ext
    simp [String.data_append]
  have hgood : ∀ e ∈ splitSlash (s ++ '/' :: leaf.data),
      e ≠ [] ∧ e ≠ ['.'] ∧ e ≠ ['.', '.'] := by
    intro e he
    rw [splitSlash_append_slash, splitSlash_of_no_slash _ hl0, List.mem_append,
      List.mem_singleton] at he
    rcases he with he | he
    · exact hs e he
    · subst he; exact ⟨hl1, hl2, hl3⟩
  have hlen : (String.mk ('/' :: s)).length = s.length + 1 := rfl
  have hempty : ("" : String).length = 0 := rfl
  have hne : String.mk ('/' :: s) ≠ "" := by
    intro h
    have := congrArg String.data h
    simp at this
  have hnil : ("" : String) ++ String.mk ('/' :: s) = String.mk ('/' :: s) := by
    apply String.ext
    simp [String.data_append]
  unfold pathJoin
  simp only [List.map_cons, List.map_nil, List.sum_cons, List.sum_nil, List.foldl_cons,
    List.foldl_nil, hlen, hempty]
  have h00 : ¬ (0 > 0) := by omega
  have hsum : ¬ (s.length + 1 + (leaf.length + 0) = 0) := by omega
  simp only [h00, false_or, hne, ne_eq, not_false_eq_true, if_true, if_false, hnil, hlen,
    hsum, gt_iff_lt, Nat.zero_lt_succ, true_or]
  rw [hbuf]
  exact pathClean_rooted _ hgood

/-- Joining a clean rooted base with the leaf private or shared. -/
theorem pathJoin_private_shared (t : List Char)
    (ht : ∀ e ∈ splitSlash t, e ≠ [] ∧ e ≠ ['.'] ∧ e ≠ ['.', '.']) :
    pathJoin [String.mk ('/' :: t), "private"] = String.mk ('/' :: t) ++ "/private" ∧
    pathJoin [String.mk ('/' :: t), "shared"] = String.mk ('/' :: t) ++ "/shared" := by
  have hp := pathJoin_rooted t "private" ht (by decide)
  have hs := pathJoin_rooted t "shared" ht (by decide)
  rw [String.append_assoc] at hp hs
  exact ⟨hp, hs⟩

/-- C14 as stated fails: with a base that ends with a slash the mount path of
the private pair is the cleaned path, not the base followed by /private. -/
theorem addBoathouseInstance_mount_path_cleaned :
    (addBoathouseInstance "minio-standard" "minio_standard" "https://minio-standard.example.ca"
        "us-east-1" "team-a" "/home/jovyan/minio/standard/" 0)[1]? = some
      { op := "add", path := "/spec/containers/0/volumeMounts/-",
        value := .volumeMount
          { Name := "minio-standard-private",
            MountPath := "/home/jovyan/minio/standard/private" } } ∧
    "/home/jovyan/minio/standard/private" ≠ "/home/jovyan/minio/standard/" ++ "/private" := by
  decide

/-- C14 (amended): for all arguments, `addBoathouseInstance` emits exactly two
volume and mount pairs: first the pair named `<instance>-private` with bucket
`profile`, then the pair named `<instance>-shared` with bucket shared; both
volumes carry the same endpoint, region and vault path
`<mount>/keys/profile-<profile>`, both mounts target container `i`, and the
mount paths are `path.Join(base, private)` and `path.Join(base, shared)`, which
are `<base>/private` and `<base>/shared` when the base is a clean rooted path
(a slash followed by elements none of which is empty, a dot or two dots). -/
theorem addBoathouseInstance_pairing (inst mount endpoint region profile base : String)
    (i : Int) :
    addBoathouseInstance inst mount endpoint region profile base i =
      [ { op := "add", path := "/spec/volumes/-",
          value := .volume
            { Name := inst ++ "-private"
              FlexVolume := some
                { Driver := "statcan.gc.ca/boathouse"
                  Options := [("bucket", profile), ("endpoint", endpoint), ("region", region),
                    ("vault-path", mount ++ "/keys/profile-" ++ profile),
                    ("vault-ttl", "24h"), ("uid", "1000"), ("gid", "100")] } } },
        { op := "add", path := "/spec/containers/" ++ fmtInt i ++ "/volumeMounts/-",
          value := .volumeMount
            { Name := inst ++ "-private", MountPath := pathJoin [base, "private"] } },
        { op := "add", path := "/spec/volumes/-",
          value := .volume
            { Name := inst ++ "-shared"
              FlexVolume := some
                { Driver := "statcan.gc.ca/boathouse"
                  Options := [("bucket", "shared"), ("endpoint", endpoint), ("region", region),
                    ("vault-path", mount ++ "/keys/profile-" ++ profile),
                    ("vault-ttl", "24h"), ("uid", "1000"), ("gid", "100")] } } },
        { op := "add", path := "/spec/containers/" ++ fmtInt i ++ "/volumeMounts/-",
          value := .volumeMount
            { Name := inst ++ "-shared", MountPath := pathJoin [base, "shared"] } } ] ∧
    (∀ t : List Char, base = String.mk ('/' :: t) →
      (∀ e ∈ splitSlash t, e ≠ [] ∧ e ≠ ['.'] ∧ e ≠ ['.', '.']) →
      pathJoin [base, "private"] = base ++ "/private" ∧
      pathJoin [base, "shared"] = base ++ "/shared") := by
  refine ⟨rfl, ?_⟩
  intro t hb ht
  subst hb
  exact pathJoin_private_shared t ht

/-- Witness of C14: the base of the standard instance is a clean rooted path. -/
theorem addBoathouseInstance_pairing_witness :
    (∀ e ∈ splitSlash "home/jovyan/minio/standard".data, e ≠ [] ∧ e ≠ ['.'] ∧ e ≠ ['.', '.']) ∧
    pathJoin ["/home/jovyan/minio/standard", "private"]
      = "/home/jovyan/minio/standard" ++ "/private" ∧
    pathJoin ["/home/jovyan/minio/standard", "shared"]
      = "/home/jovyan/minio/standard" ++ "/shared" :=
  ⟨by decide,
    (addBoathouseInstance_pairing "minio-standard" "minio_standard"
      "https://minio-standard.example.ca" "us-east-1" "team-a" "/home/jovyan/minio/standard"
      0).2 "home/jovyan/minio/standard".data rfl (by decide)⟩

/-! ## The orchestrator: parameters of each instance -/

/-- The four operations of `addBoathouseInstance`. -/
theorem addBoathouseInstance_ops (inst mount endpoint region profile base : String)
    (i : Int) :
    addBoathouseInstance inst mount endpoint region profile base i =
      [ { op := "add", path := "/spec/volumes/-",
          value := .volume
            { Name := inst ++ "-private"
              FlexVolume := some
                { Driver := "statcan.gc.ca/boathouse"
                  Options := [("bucket", profile), ("endpoint", endpoint), ("region", region),
                    ("vault-path", mount ++ "/keys/profile-" ++ profile),
                    ("vault-ttl", "24h"), ("uid", "1000"), ("gid", "100")] } } },
        { op := "add", path := "/spec/containers/" ++ fmtInt i ++ "/volumeMounts/-",
          value := .volumeMount
            { Name := inst ++ "-private", MountPath := pathJoin [base, "private"] } },
        { op := "add", path := "/spec/volumes/-",
          value := .volume
            { Name := inst ++ "-shared"
              FlexVolume := some
                { Driver := "statcan.gc.ca/boathouse"
                  Options := [("bucket", "shared"), ("endpoint", endpoint), ("region", region),
                    ("vault-path", mount ++ "/keys/profile-" ++ profile),
                    ("vault-ttl", "24h"), ("uid", "1000"), ("gid", "100")] } } },
        { op := "add", path := "/spec/containers/" ++ fmtInt i ++ "/volumeMounts/-",
          value := .volumeMount
            { Name := inst ++ "-shared", MountPath := pathJoin [base, "shared"] } } ] :=
  rfl

/-- The mount paths under the mount root of an instance whose short identifier
is a clean relative path. -/
theorem pathJoin_minio (short : String)
    (h : ∀ e ∈ splitSlash short.data, e ≠ [] ∧ e ≠ ['.'] ∧ e ≠ ['.', '.']) :
    pathJoin ["/home/jovyan/minio/" ++ short, "private"]
      = "/home/jovyan/minio/" ++ short ++ "/private" ∧
    pathJoin ["/home/jovyan/minio/" ++ short, "shared"]
      = "/home/jovyan/minio/" ++ short ++ "/shared" := by
  have hb : "/home/jovyan/minio/" ++ short
      = String.mk ('/' :: ("home/jovyan/minio".data ++ '/' :: short.data)) := by
    apply String.ext
    rw [String.data_append]
    rfl
  have hgood : ∀ e ∈ splitSlash ("home/jovyan/minio".data ++ '/' :: short.data),
      e ≠ [] ∧ e ≠ ['.'] ∧ e ≠ ['.', '.'] := by
    intro e he
    rw [splitSlash_append_slash, List.mem_append] at he
    rcases he with he | he
    · have hroot : ∀ x ∈ splitSlash "home/jovyan/minio".data,
          x ≠ [] ∧ x ≠ ['.'] ∧ x ≠ ['.', '.'] := by decide
      exact hroot e he
    · exact h e he
  rw [hb]
  exact pathJoin_private_shared _ hgood

/-- C15 as stated fails: for an instance whose short identifier is empty, or
ends with a slash, the mount path of the private mount is the cleaned path,
not the mount root followed by the identifier and /private. -/
theorem mutate_mount_path_cleaned :
    (∃ resp ops, mutate (fun _ => .ok injectPod) [emptyShortInstance] exampleRequest
        = .done (resp, none) ∧ resp.Patch = some ops ∧
      ops[1]? = some
        { op := "add", path := "/spec/containers/0/volumeMounts/-",
          value := .volumeMount
            { Name := "minio-standard-private",
              MountPath := "/home/jovyan/minio/private" } } ∧
      "/home/jovyan/minio/private"
        ≠ "/home/jovyan/minio/" ++ emptyShortInstance.Short ++ "/private") ∧
    (∃ resp ops, mutate (fun _ => .ok injectPod) [slashShortInstance] exampleRequest
        = .done (resp, none) ∧ resp.Patch = some ops ∧
      ops[1]? = some
        { op := "add", path := "/spec/containers/0/volumeMounts/-",
          value := .volumeMount
            { Name := "minio-standard-private",
              MountPath := "/home/jovyan/minio/standard/private" } } ∧
      "/home/jovyan/minio/standard/private"
        ≠ "/home/jovyan/minio/" ++ slashShortInstance.Short ++ "/private") :=
  ⟨⟨_, _, rfl, rfl, by decide, by decide⟩, ⟨_, _, rfl, rfl, by decide, by decide⟩⟩

/-- C15 (amended): for an injecting pod with profile `p` and the k-th instance
of the registry, the two volumes that `mutate` emits for it have the vault
path `<Name>/keys/profile-<p>` (the name unmodified), the endpoint
`ExternalUrl` and the region us-east-1, and the two mounts have the paths
`path.Join` of `/home/jovyan/minio/<Short>` with private and with shared; these
are `/home/jovyan/minio/<Short>/private` and `/home/jovyan/minio/<Short>/shared`
whenever no slash-separated element of `Short` is empty, a dot or two dots. -/
theorem mutate_instance_parameters (unmarshal : String → Except GoError Pod)
    (instances : List Instance) (request : AdmissionRequest) (pod : Pod) (val : String)
    (hdec : unmarshal request.Raw = .ok pod)
    (hcont : pod.Spec.Containers ≠ [])
    (hann : pod.ObjectMeta.Annotations.lookup "data.statcan.gc.ca/inject-boathouse" = some val)
    (hval : parseBool val = .ok true)
    (hcls : pod.ObjectMeta.Labels.lookup "data.statcan.gc.ca/classification"
      ≠ some "protected-b") :
    ∃ resp ops, mutate unmarshal instances request = .done (resp, none) ∧
      resp.Patch = some ops ∧
      ∀ (k : Nat) (hk : k < instances.length),
        ∃ (v1 v2 : Volume) (fv1 fv2 : FlexVolumeSource) (m1 m2 : VolumeMount) (ptr : String),
          ops[4 * k]? = some { op := "add", path := "/spec/volumes/-", value := .volume v1 } ∧
          ops[4 * k + 1]? = some { op := "add", path := ptr, value := .volumeMount m1 } ∧
          ops[4 * k + 2]? = some { op := "add", path := "/spec/volumes/-", value := .volume v2 } ∧
          ops[4 * k + 3]? = some { op := "add", path := ptr, value := .volumeMount m2 } ∧
          v1.FlexVolume = some fv1 ∧ v2.FlexVolume = some fv2 ∧
          fv1.Options.lookup "vault-path" = some ((instances.get ⟨k, hk⟩).Name
            ++ "/keys/profile-" ++ cleanName pod.ObjectMeta.Namespace) ∧
          fv2.Options.lookup "vault-path" = some ((instances.get ⟨k, hk⟩).Name
            ++ "/keys/profile-" ++ cleanName pod.ObjectMeta.Namespace) ∧
          fv1.Options.lookup "endpoint" = some (instances.get ⟨k, hk⟩).ExternalUrl ∧
          fv2.Options.lookup "endpoint" = some (instances.get ⟨k, hk⟩).ExternalUrl ∧
          fv1.Options.lookup "region" = some "us-east-1" ∧
          fv2.Options.lookup "region" = some "us-east-1" ∧
          m1.MountPath
            = pathJoin ["/home/jovyan/minio/" ++ (instances.get ⟨k, hk⟩).Short, "private"] ∧
          m2.MountPath
            = pathJoin ["/home/jovyan/minio/" ++ (instances.get ⟨k, hk⟩).Short, "shared"] ∧
          ((∀ e ∈ splitSlash (instances.get ⟨k, hk⟩).Short.data,
              e ≠ [] ∧ e ≠ ['.'] ∧ e ≠ ['.', '.']) →
            m1.MountPath
              = "/home/jovyan/minio/" ++ (instances.get ⟨k, hk⟩).Short ++ "/private" ∧
            m2.MountPath
              = "/home/jovyan/minio/" ++ (instances.get ⟨k, hk⟩).Short ++ "/shared") := by
  refine ⟨_, _, mutate_inject unmarshal instances request pod val hdec hcont hann hval hcls,
    rfl, ?_⟩
  intro k hk
  have h0 := instancePatches_getElem? instances (cleanName pod.ObjectMeta.Namespace)
    (resolvedIndex pod) k 0 hk (by omega)
  have h1 := instancePatches_getElem? instances (cleanName pod.ObjectMeta.Namespace)
    (resolvedIndex pod) k 1 hk (by omega)
  have h2 := instancePatches_getElem? instances (cleanName pod.ObjectMeta.Namespace)
    (resolvedIndex pod) k 2 hk (by omega)
  have h3 := instancePatches_getElem? instances (cleanName pod.ObjectMeta.Namespace)
    (resolvedIndex pod) k 3 hk (by omega)
  rw [Nat.add_zero] at h0
  rw [addBoathouseInstance_ops] at h0 h1 h2 h3
  simp only [List.getElem?_cons_zero, List.getElem?_cons_succ] at h0 h1 h2 h3
  refine ⟨_, _, _, _, _, _, _, h0, h1, h2, h3, rfl, rfl, ?_⟩
  refine ⟨?_, ?_, ?_, ?_, ?_, ?_, ?_⟩
  · simp [List.lookup]
  · simp [List.lookup]
  · simp [List.lookup]
  · simp [List.lookup]
  · simp [List.lookup, defaultRegion]
  · simp [List.lookup, defaultRegion]
  · dsimp only
    exact ⟨rfl, rfl, fun hshort => pathJoin_minio _ hshort⟩

/-- Witness of C15: the notebook pod of namespace team_a and the standard
instance, whose short identifier is a single clean element. -/
theorem mutate_instance_parameters_witness :
    (∀ e ∈ splitSlash "standard".data, e ≠ [] ∧ e ≠ ['.'] ∧ e ≠ ['.', '.']) ∧
    ∃ resp ops, mutate (fun _ => .ok injectPod) exampleInstances exampleRequest
        = .done (resp, none) ∧
      resp.Patch = some ops ∧
      ∃ (v1 : Volume) (fv1 : FlexVolumeSource) (m1 m2 : VolumeMount) (ptr : String),
        ops[0]? = some { op := "add", path := "/spec/volumes/-", value := .volume v1 } ∧
        ops[1]? = some { op := "add", path := ptr, value := .volumeMount m1 } ∧
        ops[3]? = some { op := "add", path := ptr, value := .volumeMount m2 } ∧
        v1.FlexVolume = some fv1 ∧
        fv1.Options.lookup "vault-path" = some "minio_standard/keys/profile-team-a" ∧
        fv1.Options.lookup "endpoint" = some "https://minio-standard.example.ca" ∧
        fv1.Options.lookup "region" = some "us-east-1" ∧
        m1.MountPath = "/home/jovyan/minio/standard/private" ∧
        m2.MountPath = "/home/jovyan/minio/standard/shared" := by
  refine ⟨by decide, ?_⟩
  obtain ⟨resp, ops, hm, hp, hall⟩ :=
    mutate_instance_parameters (fun _ => .ok injectPod) exampleInstances exampleRequest
      injectPod "true" rfl (by decide) (by decide) (by decide) (by decide)
  obtain ⟨v1, _, fv1, _, m1, m2, ptr, h0, h1, _, h3, hf1, _, hv, _, he, _, hr, _, _, _, hlit⟩ :=
    hall 0 (by decide)
  have hshort : ∀ e ∈ splitSlash "standard".data, e ≠ [] ∧ e ≠ ['.'] ∧ e ≠ ['.', '.'] := by
    decide
  exact ⟨resp, ops, hm, hp, v1, fv1, m1, m2, ptr, h0, h1, h3, hf1, hv, he, hr,
    (hlit hshort).1, (hlit hshort).2⟩

/-! ## The orchestrator: all runs on a decoded pod -/

/-- The response of `mutate` on a payload that does not decode. -/
theorem mutate_decode_error (unmarshal : String → Except GoError Pod)
    (instances : List Instance) (request : AdmissionRequest) (err : GoError)
    (hdec : unmarshal request.Raw = .error err) :
    mutate unmarshal instances request =
      .done (defaultResponse request, some (.wrapped "unable to decode Pod " err)) := by
  unfold mutate
  simp only [hdec]

/-- The run of `mutate` on a workflow pod without containers whose annotation
is absent or a boolean. -/
theorem mutate_panic (unmarshal : String → Except GoError Pod) (instances : List Instance)
    (request : AdmissionRequest) (pod : Pod) (w : String)
    (hdec : unmarshal request.Raw = .ok pod)
    (hann : pod.ObjectMeta.Annotations.lookup "data.statcan.gc.ca/inject-boathouse" = none ∨
      ∃ val b, pod.ObjectMeta.Annotations.lookup "data.statcan.gc.ca/inject-boathouse"
        = some val ∧ parseBool val = .ok b)
    (hw : pod.ObjectMeta.Labels.lookup "workflows.argoproj.io/workflow" = some w)
    (hc : pod.Spec.Containers = []) :
    mutate unmarshal instances request
      = .panic "runtime error: index out of range [0] with length 0" := by
  unfold mutate
  rcases hann with h | ⟨val, b, h, hv⟩
  · simp only [hdec, h, hw, hc]
  · simp only [hdec, h, hv, hw, hc]

/-- The response of `mutate` on an injected pod without the workflow label. -/
theorem mutate_inject_plain (unmarshal : String → Except GoError Pod)
    (instances : List Instance) (request : AdmissionRequest) (pod : Pod) (val : String)
    (hdec : unmarshal request.Raw = .ok pod)
    (hw : pod.ObjectMeta.Labels.lookup "workflows.argoproj.io/workflow" = none)
    (hann : pod.ObjectMeta.Annotations.lookup "data.statcan.gc.ca/inject-boathouse" = some val)
    (hval : parseBool val = .ok true)
    (hcls : pod.ObjectMeta.Labels.lookup "data.statcan.gc.ca/classification"
      ≠ some "protected-b") :
    mutate unmarshal instances request =
      .done ({ UID := request.UID
               Allowed := true
               Result := some { Status := "Success" }
               Patch := some (instancePatches instances (cleanName pod.ObjectMeta.Namespace)
                 (resolvedIndex pod))
               PatchType := some "JSONPatch"
               AuditAnnotations := some [("goofys-injector", "Added MinIO volume mounts")] },
             none) := by
  have hinj : (match pod.ObjectMeta.Labels.lookup "data.statcan.gc.ca/classification" with
      | some v => if v = "protected-b" then false else true
      | none => true) = true := by
    cases hl : pod.ObjectMeta.Labels.lookup "data.statcan.gc.ca/classification" with
    | none => rfl
    | some v =>
      have : v ≠ "protected-b" := fun h => hcls (by rw [hl, h])
      simp [this]
  unfold mutate
  simp only [hdec, hann, hval, hw, hinj, resolvedIndex]
  simp [defaultResponse, PatchTypeJSONPatch, StatusSuccess]

/-- The response of `mutate` on a pod without the workflow label that is not
injected. -/
theorem mutate_no_inject_plain (unmarshal : String → Except GoError Pod)
    (instances : List Instance) (request : AdmissionRequest) (pod : Pod)
    (hdec : unmarshal request.Raw = .ok pod)
    (hw : pod.ObjectMeta.Labels.lookup "workflows.argoproj.io/workflow" = none)
    (hann : pod.ObjectMeta.Annotations.lookup "data.statcan.gc.ca/inject-boathouse" = none ∨
      (∃ val, pod.ObjectMeta.Annotations.lookup "data.statcan.gc.ca/inject-boathouse" = some val ∧
        parseBool val = .ok false) ∨
      ((∃ val, pod.ObjectMeta.Annotations.lookup "data.statcan.gc.ca/inject-boathouse" = some val ∧
        parseBool val = .ok true) ∧
       pod.ObjectMeta.Labels.lookup "data.statcan.gc.ca/classification" = some "protected-b")) :
    mutate unmarshal instances request = .done (defaultResponse request, none) := by
  unfold mutate
  rcases hann with h | ⟨val, h, hv⟩ | ⟨⟨val, h, hv⟩, hc⟩
  · simp only [hdec, h, hw]
    cases hl : pod.ObjectMeta.Labels.lookup "data.statcan.gc.ca/classification" <;> simp
  · simp only [hdec, h, hv, hw]
    cases hl : pod.ObjectMeta.Labels.lookup "data.statcan.gc.ca/classification" <;> simp
  · simp only [hdec, h, hv, hw, hc]
    simp

/-- The four kinds of run of `mutate` on a decoded pod: the parse error, the
panic, the injection and the response without injection. -/
theorem mutate_ok_cases (unmarshal : String → Except GoError Pod) (instances : List Instance)
    (request : AdmissionRequest) (pod : Pod)
    (hdec : unmarshal request.Raw = .ok pod) :
    (∃ val e, pod.ObjectMeta.Annotations.lookup "data.statcan.gc.ca/inject-boathouse"
        = some val ∧ parseBool val = .error e ∧
      mutate unmarshal instances request = .done (defaultResponse request, some (.wrapped
        "unable to decode data.statcan.gc.ca/boathouse-inject annotation " e))) ∨
    ((pod.ObjectMeta.Labels.lookup "workflows.argoproj.io/workflow").isSome ∧
      pod.Spec.Containers = [] ∧
      mutate unmarshal instances request
        = .panic "runtime error: index out of range [0] with length 0") ∨
    (((∃ val, pod.ObjectMeta.Annotations.lookup "data.statcan.gc.ca/inject-boathouse"
          = some val ∧ parseBool val = .ok true) ∧
        pod.ObjectMeta.Labels.lookup "data.statcan.gc.ca/classification"
          ≠ some "protected-b") ∧
      mutate unmarshal instances request =
        .done ({ UID := request.UID
                 Allowed := true
                 Result := some { Status := "Success" }
                 Patch := some (instancePatches instances (cleanName pod.ObjectMeta.Namespace)
                   (resolvedIndex pod))
                 PatchType := some "JSONPatch"
                 AuditAnnotations := some [("goofys-injector", "Added MinIO volume mounts")] },
               none)) ∨
    (¬ ((∃ val, pod.ObjectMeta.Annotations.lookup "data.statcan.gc.ca/inject-boathouse"
          = some val ∧ parseBool val = .ok true) ∧
        pod.ObjectMeta.Labels.lookup "data.statcan.gc.ca/classification"
          ≠ some "protected-b") ∧
      mutate unmarshal instances request = .done (defaultResponse request, none)) := by
  -- the annotation is absent, malformed or a boolean
  have hparse : (∃ val e, pod.ObjectMeta.Annotations.lookup
        "data.statcan.gc.ca/inject-boathouse" = some val ∧ parseBool val = .error e) ∨
      (pod.ObjectMeta.Annotations.lookup "data.statcan.gc.ca/inject-boathouse" = none ∨
        ∃ val b, pod.ObjectMeta.Annotations.lookup "data.statcan.gc.ca/inject-boathouse"
          = some val ∧ parseBool val = .ok b) := by
    cases ha : pod.ObjectMeta.Annotations.lookup "data.statcan.gc.ca/inject-boathouse" with
    | none => exact Or.inr (Or.inl rfl)
    | some val =>
      cases hv : parseBool val with
      | error e => exact Or.inl ⟨val, e, rfl, hv⟩
      | ok b => exact Or.inr (Or.inr ⟨val, b, rfl, hv⟩)
  rcases hparse with ⟨val, e, ha, hv⟩ | hbool
  · exact Or.inl ⟨val, e, ha, hv,
      mutate_parse_error unmarshal instances request pod val e hdec ha hv⟩
  · right
    -- the first-container lookup is out of range, or it is not
    by_cases hsafe : (pod.ObjectMeta.Labels.lookup "workflows.argoproj.io/workflow").isSome ∧
        pod.Spec.Containers = []
    · obtain ⟨hw, hc⟩ := hsafe
      obtain ⟨w, hw2⟩ := Option.isSome_iff_exists.mp hw
      exact Or.inl ⟨hw, hc, mutate_panic unmarshal instances request pod w hdec hbool hw2 hc⟩
    · right
      by_cases hinj : (∃ val, pod.ObjectMeta.Annotations.lookup
            "data.statcan.gc.ca/inject-boathouse" = some val ∧ parseBool val = .ok true) ∧
          pod.ObjectMeta.Labels.lookup "data.statcan.gc.ca/classification"
            ≠ some "protected-b"
      · left
        refine ⟨hinj, ?_⟩
        obtain ⟨⟨val, ha, hv⟩, hcls⟩ := hinj
        by_cases hc : pod.Spec.Containers = []
        · have hw : pod.ObjectMeta.Labels.lookup "workflows.argoproj.io/workflow" = none := by
            cases hw : pod.ObjectMeta.Labels.lookup "workflows.argoproj.io/workflow" with
            | none => rfl
            | some w => exact absurd ⟨by rw [hw]; rfl, hc⟩ hsafe
          exact mutate_inject_plain unmarshal instances request pod val hdec hw ha hv hcls
        · exact mutate_inject unmarshal instances request pod val hdec hc ha hv hcls
      · right
        refine ⟨hinj, ?_⟩
        have hno : pod.ObjectMeta.Annotations.lookup "data.statcan.gc.ca/inject-boathouse" = none ∨
            (∃ val, pod.ObjectMeta.Annotations.lookup "data.statcan.gc.ca/inject-boathouse"
              = some val ∧ parseBool val = .ok false) ∨
            ((∃ val, pod.ObjectMeta.Annotations.lookup "data.statcan.gc.ca/inject-boathouse"
              = some val ∧ parseBool val = .ok true) ∧
             pod.ObjectMeta.Labels.lookup "data.statcan.gc.ca/classification"
              = some "protected-b") := by
          rcases hbool with ha | ⟨val, b, ha, hv⟩
          · exact Or.inl ha
          · cases b with
            | false => exact Or.inr (Or.inl ⟨val, ha, hv⟩)
            | true =>
              refine Or.inr (Or.inr ⟨⟨val, ha, hv⟩, ?_⟩)
              by_contra hcls
              exact hinj ⟨⟨val, ha, hv⟩, hcls⟩
        by_cases hc : pod.Spec.Containers = []
        · have hw : pod.ObjectMeta.Labels.lookup "workflows.argoproj.io/workflow" = none := by
            cases hw : pod.ObjectMeta.Labels.lookup "workflows.argoproj.io/workflow" with
            | none => rfl
            | some w => exact absurd ⟨by rw [hw]; rfl, hc⟩ hsafe
          exact mutate_no_inject_plain unmarshal instances request pod hdec hw hno
        · exact mutate_no_inject unmarshal instances request pod hdec hc hno

/-! ## The orchestrator: audit annotation and status -/

/-- C16: on every request on which `mutate` returns without error, the response
carries the audit annotation goofys-injector = Added MinIO volume mounts and
the status Success if and only if the injection decision is true (the
annotation parses to true and the classification label is not protected-b);
otherwise it has no audit annotation, no status and no patch. With the audit
annotation the patch has 4 operations for each instance, and it is the empty
list when the registry is empty. -/
theorem mutate_audit_iff_inject (unmarshal : String → Except GoError Pod)
    (instances : List Instance) (request : AdmissionRequest) (resp : AdmissionResponse)
    (h : mutate unmarshal instances request = .done (resp, none)) :
    ∃ pod, unmarshal request.Raw = .ok pod ∧
      ((resp.AuditAnnotations = some [("goofys-injector", "Added MinIO volume mounts")] ∧
          resp.Result = some { Status := "Success" }) ↔
        ((∃ val, pod.ObjectMeta.Annotations.lookup "data.statcan.gc.ca/inject-boathouse"
            = some val ∧ parseBool val = .ok true) ∧
          pod.ObjectMeta.Labels.lookup "data.statcan.gc.ca/classification"
            ≠ some "protected-b")) ∧
      ((resp.AuditAnnotations = some [("goofys-injector", "Added MinIO volume mounts")] ∧
          resp.Result = some { Status := "Success" } ∧
          ∃ ops, resp.Patch = some ops ∧ ops.length = 4 * instances.length ∧
            (instances = [] → ops = [])) ∨
        (resp.AuditAnnotations = none ∧ resp.Result = none ∧ resp.Patch = none)) := by
  cases hdec : unmarshal request.Raw with
  | error e =>
    rw [mutate_decode_error unmarshal instances request e hdec] at h
    cases h
  | ok pod =>
    refine ⟨pod, rfl, ?_⟩
    rcases mutate_ok_cases unmarshal instances request pod hdec with
      ⟨val, e, _, _, hm⟩ | ⟨_, _, hm⟩ | ⟨hinj, hm⟩ | ⟨hinj, hm⟩
    · rw [hm] at h; cases h
    · rw [hm] at h; cases h
    · rw [hm] at h
      cases h
      refine ⟨⟨fun _ => hinj, fun _ => ⟨rfl, rfl⟩⟩, Or.inl ⟨rfl, rfl, _, rfl,
        instancePatches_length _ _ _, ?_⟩⟩
      intro hnil
      rw [hnil]
      rfl
    · rw [hm] at h
      cases h
      refine ⟨⟨fun ha => ?_, fun hi => absurd hi hinj⟩, Or.inr ⟨rfl, rfl, rfl⟩⟩
      have := ha.1
      simp [defaultResponse] at this

/-- Witness of C16: the notebook pod of namespace team_a with an empty
registry: the response has the audit annotation, the status Success and the
empty patch. -/
theorem mutate_audit_iff_inject_witness :
    ∃ resp, mutate (fun _ => .ok injectPod) [] exampleRequest = .done (resp, none) ∧
      resp.Patch = some [] ∧
      ∃ pod, (fun _ => Except.ok injectPod : String → Except GoError Pod) exampleRequest.Raw
          = .ok pod ∧
        ((resp.AuditAnnotations = some [("goofys-injector", "Added MinIO volume mounts")] ∧
            resp.Result = some { Status := "Success" }) ↔
          ((∃ val, pod.ObjectMeta.Annotations.lookup "data.statcan.gc.ca/inject-boathouse"
              = some val ∧ parseBool val = .ok true) ∧
            pod.ObjectMeta.Labels.lookup "data.statcan.gc.ca/classification"
              ≠ some "protected-b")) ∧
        ((resp.AuditAnnotations = some [("goofys-injector", "Added MinIO volume mounts")] ∧
            resp.Result = some { Status := "Success" } ∧
            ∃ ops, resp.Patch = some ops ∧ ops.length = 4 * ([] : List Instance).length ∧
              (([] : List Instance) = [] → ops = [])) ∨
          (resp.AuditAnnotations = none ∧ resp.Result = none ∧ resp.Patch = none)) :=
  ⟨_, rfl, rfl, mutate_audit_iff_inject (fun _ => .ok injectPod) [] exampleRequest _ rfl⟩

/-! ## The orchestrator: names of the volumes -/

theorem string_append_right_cancel (a b s : String) (h : a ++ s = b ++ s) : a = b := by
  apply String.ext
  have := congrArg String.data h
  rw [String.data_append, String.data_append] at this
  exact List.append_cancel_right this

theorem private_ne_shared (a b : String) : a ++ "-private" ≠ b ++ "-shared" := by
  intro h
  have h2 := congrArg String.data h
  rw [String.data_append, String.data_append] at h2
  have h3 := congrArg List.getLast? h2
  have hp : "-private".data = ['-', 'p', 'r', 'i', 'v', 'a', 't', 'e'] := rfl
  have hs : "-shared".data = ['-', 's', 'h', 'a', 'r', 'e', 'd'] := rfl
  rw [hp, hs] at h3
  simp [List.getLast?_append] at h3

theorem instancePatches_volume_at (instances : List Instance) (profile : String) (idx : Int)
    (i : Nat) (op : PatchOp) (v : Volume)
    (h : (instancePatches instances profile idx)[i]? = some op)
    (hv : op.value = .volume v) :
    ∃ (k : Nat) (hk : k < instances.length),
      (i = 4 * k ∧
        v.Name = stringsReplaceAll (instances.get ⟨k, hk⟩).Name '_' '-' ++ "-private") ∨
      (i = 4 * k + 2 ∧
        v.Name = stringsReplaceAll (instances.get ⟨k, hk⟩).Name '_' '-' ++ "-shared") := by
  have hlt : i < 4 * instances.length := by
    have := (List.getElem?_eq_some_iff.mp h).1
    rwa [instancePatches_length] at this
  have hk : i / 4 < instances.length := by omega
  have hr : i % 4 < 4 := Nat.mod_lt _ (by decide)
  have hsplit : i = 4 * (i / 4) + i % 4 := (Nat.div_add_mod i 4).symm
  generalize i / 4 = k at hk hsplit
  generalize i % 4 = r at hr hsplit
  subst hsplit
  rw [instancePatches_getElem? instances _ _ k r hk hr, addBoathouseInstance_ops] at h
  refine ⟨k, hk, ?_⟩
  match r, hr with
  | 0, _ =>
    simp only [List.getElem?_cons_zero, Option.some.injEq] at h
    rw [← h] at hv
    cases hv
    exact Or.inl ⟨rfl, rfl⟩
  | 1, _ =>
    simp only [List.getElem?_cons_succ, List.getElem?_cons_zero, Option.some.injEq] at h
    rw [← h] at hv; cases hv
  | 2, _ =>
    simp only [List.getElem?_cons_succ, List.getElem?_cons_zero, Option.some.injEq] at h
    rw [← h] at hv
    cases hv
    exact Or.inr ⟨rfl, rfl⟩
  | 3, _ =>
    simp only [List.getElem?_cons_succ, List.getElem?_cons_zero, Option.some.injEq] at h
    rw [← h] at hv; cases hv

theorem cleaned_index_inj (instances : List Instance)
    (hnd : (instances.map fun inst => stringsReplaceAll inst.Name '_' '-').Nodup)
    (a b : Nat) (ha : a < instances.length) (hb : b < instances.length)
    (h : stringsReplaceAll (instances.get ⟨a, ha⟩).Name '_' '-'
      = stringsReplaceAll (instances.get ⟨b, hb⟩).Name '_' '-') : a = b := by
  have ha2 : a < (instances.map fun inst => stringsReplaceAll inst.Name '_' '-').length := by
    simpa using ha
  have hb2 : b < (instances.map fun inst => stringsReplaceAll inst.Name '_' '-').length := by
    simpa using hb
  have := (List.Nodup.get_inj_iff hnd (i := ⟨a, ha2⟩) (j := ⟨b, hb2⟩)).mp (by simpa using h)
  simpa using this

/-- C17: volume names are unique. For an injecting pod and a registry whose
names stay pairwise distinct after the replacement of underscores by hyphens,
two volume additions of the patch of `mutate` with the same name stand at the
same position (a private name is never a shared name, and an equal suffix
forces an equal instance); conversely two instances at different positions
whose names agree after the replacement give two volume additions, at
different positions, with the same name. -/
theorem mutate_volume_names_unique (unmarshal : String → Except GoError Pod)
    (instances : List Instance) (request : AdmissionRequest) (pod : Pod) (val : String)
    (hdec : unmarshal request.Raw = .ok pod)
    (hcont : pod.Spec.Containers ≠ [])
    (hann : pod.ObjectMeta.Annotations.lookup "data.statcan.gc.ca/inject-boathouse" = some val)
    (hval : parseBool val = .ok true)
    (hcls : pod.ObjectMeta.Labels.lookup "data.statcan.gc.ca/classification"
      ≠ some "protected-b") :
    ∃ resp ops, mutate unmarshal instances request = .done (resp, none) ∧
      resp.Patch = some ops ∧
      ((instances.map fun inst => stringsReplaceAll inst.Name '_' '-').Nodup →
        ∀ (i j : Nat) (opi opj : PatchOp) (vi vj : Volume),
          ops[i]? = some opi → ops[j]? = some opj →
          opi.value = .volume vi → opj.value = .volume vj →
          vi.Name = vj.Name → i = j) ∧
      (∀ (a b : Nat) (ha : a < instances.length) (hb : b < instances.length),
        a ≠ b →
        stringsReplaceAll (instances.get ⟨a, ha⟩).Name '_' '-'
          = stringsReplaceAll (instances.get ⟨b, hb⟩).Name '_' '-' →
        ∃ va vb,
          ops[4 * a]? = some { op := "add", path := "/spec/volumes/-", value := .volume va } ∧
          ops[4 * b]? = some { op := "add", path := "/spec/volumes/-", value := .volume vb } ∧
          4 * a ≠ 4 * b ∧ va.Name = vb.Name) ∧
      (∀ x y : String, x ++ "-private" ≠ y ++ "-shared" ∧
        (x ++ "-private" = y ++ "-private" → x = y) ∧
        (x ++ "-shared" = y ++ "-shared" → x = y)) := by
  refine ⟨_, _, mutate_inject unmarshal instances request pod val hdec hcont hann hval hcls,
    rfl, ?_, ?_, ?_⟩
  · intro hnd i j opi opj vi vj hi hj hvi hvj hname
    obtain ⟨a, ha, hA⟩ := instancePatches_volume_at _ _ _ i opi vi hi hvi
    obtain ⟨b, hb, hB⟩ := instancePatches_volume_at _ _ _ j opj vj hj hvj
    rcases hA with ⟨hia, hna⟩ | ⟨hia, hna⟩ <;> rcases hB with ⟨hjb, hnb⟩ | ⟨hjb, hnb⟩
    · rw [hna, hnb] at hname
      have := cleaned_index_inj instances hnd a b ha hb
        (string_append_right_cancel _ _ _ hname)
      omega
    · rw [hna, hnb] at hname
      exact absurd hname (private_ne_shared _ _)
    · rw [hna, hnb] at hname
      exact absurd hname.symm (private_ne_shared _ _)
    · rw [hna, hnb] at hname
      have := cleaned_index_inj instances hnd a b ha hb
        (string_append_right_cancel _ _ _ hname)
      omega
  · intro a b ha hb hab hclean
    have h0a := instancePatches_getElem? instances (cleanName pod.ObjectMeta.Namespace)
      (resolvedIndex pod) a 0 ha (by omega)
    have h0b := instancePatches_getElem? instances (cleanName pod.ObjectMeta.Namespace)
      (resolvedIndex pod) b 0 hb (by omega)
    rw [Nat.add_zero, addBoathouseInstance_ops] at h0a h0b
    simp only [List.getElem?_cons_zero] at h0a h0b
    refine ⟨_, _, h0a, h0b, by omega, ?_⟩
    dsimp only
    rw [hclean]
  · intro x y
    exact ⟨private_ne_shared x y, string_append_right_cancel x y _,
      string_append_right_cancel x y _⟩

/-- Witness of C17: the example registry has distinct cleaned names, so the
volumes at positions 0 and 2 have different names; in the clashing registry
the volumes at positions 0 and 4 have the same name. -/
theorem mutate_volume_names_unique_witness :
    (exampleInstances.map fun inst => stringsReplaceAll inst.Name '_' '-').Nodup ∧
    (∃ resp ops, mutate (fun _ => .ok injectPod) exampleInstances exampleRequest
        = .done (resp, none) ∧ resp.Patch = some ops ∧
      ∀ (i j : Nat) (opi opj : PatchOp) (vi vj : Volume),
        ops[i]? = some opi → ops[j]? = some opj →
        opi.value = .volume vi → opj.value = .volume vj →
        vi.Name = vj.Name → i = j) ∧
    (∃ resp ops, mutate (fun _ => .ok injectPod) clashingInstances exampleRequest
        = .done (resp, none) ∧ resp.Patch = some ops ∧
      ∃ va vb,
        ops[4 * 0]? = some { op := "add", path := "/spec/volumes/-", value := .volume va } ∧
        ops[4 * 1]? = some { op := "add", path := "/spec/volumes/-", value := .volume vb } ∧
        4 * 0 ≠ 4 * 1 ∧ va.Name = vb.Name) := by
  have hnd : (exampleInstances.map fun inst => stringsReplaceAll inst.Name '_' '-').Nodup := by
    decide
  refine ⟨hnd, ?_, ?_⟩
  · obtain ⟨resp, ops, hm, hp, huniq, _, _⟩ :=
      mutate_volume_names_unique (fun _ => .ok injectPod) exampleInstances exampleRequest
        injectPod "true" rfl (by decide) (by decide) (by decide) (by decide)
    exact ⟨resp, ops, hm, hp, huniq hnd⟩
  · obtain ⟨resp, ops, hm, hp, _, hdup, _⟩ :=
      mutate_volume_names_unique (fun _ => .ok injectPod) clashingInstances exampleRequest
        injectPod "true" rfl (by decide) (by decide) (by decide) (by decide)
    exact ⟨resp, ops, hm, hp, hdup 0 1 (by decide) (by decide) (by decide) (by decide)⟩

/-! ## The orchestrator and the secret store -/

/-- The patch of a returned response is the result of the registry loop. -/
theorem mutate_patch_origin (unmarshal : String → Except GoError Pod)
    (instances : List Instance) (request : AdmissionRequest) (resp : AdmissionResponse)
    (err : Option GoError) (ops : List PatchOp)
    (h : mutate unmarshal instances request = .done (resp, err))
    (hp : resp.Patch = some ops) :
    ∃ profile idx, ops = instancePatches instances profile idx := by
  cases hdec : unmarshal request.Raw with
  | error e =>
    rw [mutate_decode_error unmarshal instances request e hdec] at h
    cases h
    simp [defaultResponse] at hp
  | ok pod =>
    rcases mutate_ok_cases unmarshal instances request pod hdec with
      ⟨val, e, _, _, hm⟩ | ⟨_, _, hm⟩ | ⟨hinj, hm⟩ | ⟨hinj, hm⟩
    · rw [hm] at h
      cases h
      simp [defaultResponse] at hp
    · rw [hm] at h; cases h
    · rw [hm] at h
      cases h
      simp only [Option.some.injEq] at hp
      exact ⟨_, _, hp.symm⟩
    · rw [hm] at h
      cases h
      simp [defaultResponse] at hp

/-- C18: the result of `mutate` does not depend on the secret store and embeds
no credential. For any two servers (two states of the secret store) the result
is the same, and every volume addition of the patch uses the driver
statcan.gc.ca/boathouse with the option keys bucket, endpoint, region,
vault-path, vault-ttl, uid, gid and no others, so neither access-key nor
secret-key is an option of a volume of the patch. -/
theorem mutate_independent_of_secret_store (unmarshal : String → Except GoError Pod)
    (instances : List Instance) (request : AdmissionRequest) :
    (∀ s1 s2 : server, s1.mutate unmarshal instances request
      = s2.mutate unmarshal instances request) ∧
    (∀ (s : server) (resp : AdmissionResponse) (err : Option GoError) (ops : List PatchOp),
      s.mutate unmarshal instances request = .done (resp, err) →
      resp.Patch = some ops →
      ∀ op ∈ ops, ∀ v, op.value = .volume v →
        ∃ fv, v.FlexVolume = some fv ∧
          fv.Driver = "statcan.gc.ca/boathouse" ∧
          fv.Options.map Prod.fst
            = ["bucket", "endpoint", "region", "vault-path", "vault-ttl", "uid", "gid"] ∧
          fv.Options.lookup "access-key" = none ∧
          fv.Options.lookup "secret-key" = none) := by
  refine ⟨fun _ _ => rfl, ?_⟩
  intro s resp err ops h hp op hop v hv
  have h2 : mutate unmarshal instances request = .done (resp, err) := h
  obtain ⟨profile, idx, hops⟩ :=
    mutate_patch_origin unmarshal instances request resp err ops h2 hp
  rw [hops] at hop
  obtain ⟨inst, _, hin⟩ := mem_instancePatches _ _ _ op hop
  rw [addBoathouseInstance_ops] at hin
  simp only [List.mem_cons, List.mem_singleton, List.not_mem_nil, or_false] at hin
  rcases hin with h1 | h1 | h1 | h1
  · rw [h1] at hv
    cases hv
    exact ⟨_, rfl, rfl, rfl, rfl, rfl⟩
  · rw [h1] at hv; cases hv
  · rw [h1] at hv
    cases hv
    exact ⟨_, rfl, rfl, rfl, rfl, rfl⟩
  · rw [h1] at hv; cases hv

/-- Witness of C18: the notebook pod of namespace team_a under a store that
holds credentials and under a store on which every read fails. -/
theorem mutate_independent_of_secret_store_witness :
    server.mutate { vault := exampleVault } (fun _ => .ok injectPod) exampleInstances
        exampleRequest
      = server.mutate { vault := failingVault } (fun _ => .ok injectPod) exampleInstances
        exampleRequest ∧
    ∃ resp ops, server.mutate { vault := exampleVault } (fun _ => .ok injectPod)
        exampleInstances exampleRequest = .done (resp, none) ∧
      resp.Patch = some ops ∧ ops.length = 8 ∧
      ∀ op ∈ ops, ∀ v, op.value = .volume v →
        ∃ fv, v.FlexVolume = some fv ∧
          fv.Driver = "statcan.gc.ca/boathouse" ∧
          fv.Options.map Prod.fst
            = ["bucket", "endpoint", "region", "vault-path", "vault-ttl", "uid", "gid"] ∧
          fv.Options.lookup "access-key" = none ∧
          fv.Options.lookup "secret-key" = none :=
  ⟨(mutate_independent_of_secret_store (fun _ => .ok injectPod) exampleInstances
      exampleRequest).1 _ _,
    _, _, rfl, rfl, by decide,
    (mutate_independent_of_secret_store (fun _ => .ok injectPod) exampleInstances
      exampleRequest).2 { vault := exampleVault } _ none _ rfl rfl⟩

/-! ## The orchestrator: spellings of the annotation -/

/-- The response of `mutate` on an injected pod, when the first-container
lookup is in range. -/
theorem mutate_inject_safe (unmarshal : String → Except GoError Pod)
    (instances : List Instance) (request : AdmissionRequest) (pod : Pod) (val : String)
    (hdec : unmarshal request.Raw = .ok pod)
    (hsafe : (pod.ObjectMeta.Labels.lookup "workflows.argoproj.io/workflow").isSome →
      pod.Spec.Containers ≠ [])
    (hann : pod.ObjectMeta.Annotations.lookup "data.statcan.gc.ca/inject-boathouse" = some val)
    (hval : parseBool val = .ok true)
    (hcls : pod.ObjectMeta.Labels.lookup "data.statcan.gc.ca/classification"
      ≠ some "protected-b") :
    mutate unmarshal instances request =
      .done ({ UID := request.UID
               Allowed := true
               Result := some { Status := "Success" }
               Patch := some (instancePatches instances (cleanName pod.ObjectMeta.Namespace)
                 (resolvedIndex pod))
               PatchType := some "JSONPatch"
               AuditAnnotations := some [("goofys-injector", "Added MinIO volume mounts")] },
             none) := by
  cases hw : pod.ObjectMeta.Labels.lookup "workflows.argoproj.io/workflow" with
  | none => exact mutate_inject_plain unmarshal instances request pod val hdec hw hann hval hcls
  | some w =>
    exact mutate_inject unmarshal instances request pod val hdec (hsafe (by rw [hw]; rfl))
      hann hval hcls

/-- The response of `mutate` on a pod that is not injected, when the
first-container lookup is in range. -/
theorem mutate_no_inject_safe (unmarshal : String → Except GoError Pod)
    (instances : List Instance) (request : AdmissionRequest) (pod : Pod)
    (hdec : unmarshal request.Raw = .ok pod)
    (hsafe : (pod.ObjectMeta.Labels.lookup "workflows.argoproj.io/workflow").isSome →
      pod.Spec.Containers ≠ [])
    (hann : pod.ObjectMeta.Annotations.lookup "data.statcan.gc.ca/inject-boathouse" = none ∨
      (∃ val, pod.ObjectMeta.Annotations.lookup "data.statcan.gc.ca/inject-boathouse" = some val ∧
        parseBool val = .ok false) ∨
      ((∃ val, pod.ObjectMeta.Annotations.lookup "data.statcan.gc.ca/inject-boathouse" = some val ∧
        parseBool val = .ok true) ∧
       pod.ObjectMeta.Labels.lookup "data.statcan.gc.ca/classification" = some "protected-b")) :
    mutate unmarshal instances request = .done (defaultResponse request, none) := by
  cases hw : pod.ObjectMeta.Labels.lookup "workflows.argoproj.io/workflow" with
  | none => exact mutate_no_inject_plain unmarshal instances request pod hdec hw hann
  | some w =>
    exact mutate_no_inject unmarshal instances request pod hdec (hsafe (by rw [hw]; rfl)) hann


theorem parseBool_true_iff (val : String) :
    parseBool val = .ok true ↔ val ∈ ["1", "t", "T", "TRUE", "true", "True"] := by
  unfold parseBool
  split
  · simp_all
    tauto
  · split <;> simp_all

theorem parseBool_false_iff (val : String) :
    parseBool val = .ok false ↔ val ∈ ["0", "f", "F", "FALSE", "false", "False"] := by
  unfold parseBool
  split
  · rename_i h
    simp only [List.mem_cons, List.mem_singleton, List.not_mem_nil, or_false]
    constructor
    · intro h2; cases h2
    · intro h2
      exfalso
      rcases h with h | h | h | h | h | h <;> subst h <;> revert h2 <;> decide
  · split
    · simp_all
      tauto
    · simp_all

/-- C19: accepted spellings of the annotation. For a decoded pod without the
protected-b label (and whose first-container lookup, if made, is in range),
`mutate` injects exactly when the annotation is one of 1, t, T, TRUE, true,
True; it returns the response without injection and without error exactly when
the annotation is absent or one of 0, f, F, FALSE, false, False; it returns an
error exactly for every other value, among them the empty string, yes, tRuE
and true with a leading blank. -/
theorem mutate_annotation_spellings (unmarshal : String → Except GoError Pod)
    (instances : List Instance) (request : AdmissionRequest) (pod : Pod)
    (hdec : unmarshal request.Raw = .ok pod)
    (hsafe : (pod.ObjectMeta.Labels.lookup "workflows.argoproj.io/workflow").isSome →
      pod.Spec.Containers ≠ [])
    (hcls : pod.ObjectMeta.Labels.lookup "data.statcan.gc.ca/classification"
      ≠ some "protected-b") :
    ((∃ resp, mutate unmarshal instances request = .done (resp, none) ∧
        resp.AuditAnnotations = some [("goofys-injector", "Added MinIO volume mounts")] ∧
        resp.Patch = some (instancePatches instances (cleanName pod.ObjectMeta.Namespace)
          (resolvedIndex pod))) ↔
      ∃ val, pod.ObjectMeta.Annotations.lookup "data.statcan.gc.ca/inject-boathouse" = some val ∧
        val ∈ ["1", "t", "T", "TRUE", "true", "True"]) ∧
    (mutate unmarshal instances request = .done (defaultResponse request, none) ↔
      (pod.ObjectMeta.Annotations.lookup "data.statcan.gc.ca/inject-boathouse" = none ∨
        ∃ val, pod.ObjectMeta.Annotations.lookup "data.statcan.gc.ca/inject-boathouse"
          = some val ∧ val ∈ ["0", "f", "F", "FALSE", "false", "False"])) ∧
    ((∃ resp e, mutate unmarshal instances request = .done (resp, some e)) ↔
      ∃ val, pod.ObjectMeta.Annotations.lookup "data.statcan.gc.ca/inject-boathouse" = some val ∧
        val ∉ ["1", "t", "T", "TRUE", "true", "True",
          "0", "f", "F", "FALSE", "false", "False"]) ∧
    (∀ val ∈ ["", "yes", "tRuE", " true"],
      val ∉ ["1", "t", "T", "TRUE", "true", "True",
        "0", "f", "F", "FALSE", "false", "False"]) := by
  have hmem : ∀ val : String,
      val ∈ ["1", "t", "T", "TRUE", "true", "True", "0", "f", "F", "FALSE", "false", "False"] ↔
        val ∈ ["1", "t", "T", "TRUE", "true", "True"] ∨
        val ∈ ["0", "f", "F", "FALSE", "false", "False"] := by
    intro val
    simp only [List.mem_cons, List.mem_singleton, List.not_mem_nil, or_false]
    tauto
  -- the three kinds of annotation and the run of each
  have hT : ∀ val, pod.ObjectMeta.Annotations.lookup "data.statcan.gc.ca/inject-boathouse"
      = some val → val ∈ ["1", "t", "T", "TRUE", "true", "True"] →
      mutate unmarshal instances request =
        .done ({ UID := request.UID
                 Allowed := true
                 Result := some { Status := "Success" }
                 Patch := some (instancePatches instances (cleanName pod.ObjectMeta.Namespace)
                   (resolvedIndex pod))
                 PatchType := some "JSONPatch"
                 AuditAnnotations := some [("goofys-injector", "Added MinIO volume mounts")] },
               none) :=
    fun val ha hv => mutate_inject_safe unmarshal instances request pod val hdec hsafe ha
      ((parseBool_true_iff val).mpr hv) hcls
  have hF : (pod.ObjectMeta.Annotations.lookup "data.statcan.gc.ca/inject-boathouse" = none ∨
        ∃ val, pod.ObjectMeta.Annotations.lookup "data.statcan.gc.ca/inject-boathouse"
          = some val ∧ val ∈ ["0", "f", "F", "FALSE", "false", "False"]) →
      mutate unmarshal instances request = .done (defaultResponse request, none) := by
    intro h
    rcases h with h | ⟨val, ha, hv⟩
    · exact mutate_no_inject_safe unmarshal instances request pod hdec hsafe (Or.inl h)
    · exact mutate_no_inject_safe unmarshal instances request pod hdec hsafe
        (Or.inr (Or.inl ⟨val, ha, (parseBool_false_iff val).mpr hv⟩))
  have hE : ∀ val, pod.ObjectMeta.Annotations.lookup "data.statcan.gc.ca/inject-boathouse"
      = some val →
      val ∉ ["1", "t", "T", "TRUE", "true", "True",
        "0", "f", "F", "FALSE", "false", "False"] →
      mutate unmarshal instances request = .done (defaultResponse request, some (.wrapped
        "unable to decode data.statcan.gc.ca/boathouse-inject annotation "
        (.syntaxError "ParseBool" val))) :=
    fun val ha hv => mutate_parse_error unmarshal instances request pod val _ hdec ha
      (parseBool_error_of_not_mem val hv)
  -- one of the three kinds holds
  have hcases : (∃ val, pod.ObjectMeta.Annotations.lookup
        "data.statcan.gc.ca/inject-boathouse" = some val ∧
        val ∈ ["1", "t", "T", "TRUE", "true", "True"]) ∨
      (pod.ObjectMeta.Annotations.lookup "data.statcan.gc.ca/inject-boathouse" = none ∨
        ∃ val, pod.ObjectMeta.Annotations.lookup "data.statcan.gc.ca/inject-boathouse"
          = some val ∧ val ∈ ["0", "f", "F", "FALSE", "false", "False"]) ∨
      (∃ val, pod.ObjectMeta.Annotations.lookup "data.statcan.gc.ca/inject-boathouse"
        = some val ∧
        val ∉ ["1", "t", "T", "TRUE", "true", "True",
          "0", "f", "F", "FALSE", "false", "False"]) := by
    cases ha : pod.ObjectMeta.Annotations.lookup "data.statcan.gc.ca/inject-boathouse" with
    | none => exact Or.inr (Or.inl (Or.inl rfl))
    | some val =>
      by_cases h1 : val ∈ ["1", "t", "T", "TRUE", "true", "True"]
      · exact Or.inl ⟨val, rfl, h1⟩
      · by_cases h2 : val ∈ ["0", "f", "F", "FALSE", "false", "False"]
        · exact Or.inr (Or.inl (Or.inr ⟨val, rfl, h2⟩))
        · refine Or.inr (Or.inr ⟨val, rfl, ?_⟩)
          rw [hmem]
          exact fun h => h.elim h1 h2
  refine ⟨⟨?_, ?_⟩, ⟨?_, hF⟩, ⟨?_, ?_⟩, by decide⟩
  · rintro ⟨resp, hm, haud, _⟩
    rcases hcases with hc | hc | ⟨val, ha, hv⟩
    · exact hc
    · rw [hF hc] at hm
      cases hm
      simp [defaultResponse] at haud
    · rw [hE val ha hv] at hm
      cases hm
  · rintro ⟨val, ha, hv⟩
    exact ⟨_, hT val ha hv, rfl, rfl⟩
  · intro hm
    rcases hcases with ⟨val, ha, hv⟩ | hc | ⟨val, ha, hv⟩
    · rw [hT val ha hv] at hm
      have := congrArg (fun r => match r with
        | Run.done (resp, _) => resp.AuditAnnotations
        | Run.panic _ => none) hm
      simp [defaultResponse] at this
    · exact hc
    · rw [hE val ha hv] at hm
      cases hm
  · rintro ⟨resp, e, hm⟩
    rcases hcases with ⟨val, ha, hv⟩ | hc | hc
    · rw [hT val ha hv] at hm
      cases hm
    · rw [hF hc] at hm
      cases hm
    · exact hc
  · rintro ⟨val, ha, hv⟩
    exact ⟨_, _, hE val ha hv⟩

/-- Witness of C19: the notebook pod, whose annotation is true, is injected. -/
theorem mutate_annotation_spellings_witness :
    ((injectPod.ObjectMeta.Labels.lookup "workflows.argoproj.io/workflow").isSome →
      injectPod.Spec.Containers ≠ []) ∧
    injectPod.ObjectMeta.Labels.lookup "data.statcan.gc.ca/classification"
      ≠ some "protected-b" ∧
    ∃ resp, mutate (fun _ => .ok injectPod) exampleInstances exampleRequest
        = .done (resp, none) ∧
      resp.AuditAnnotations = some [("goofys-injector", "Added MinIO volume mounts")] ∧
      resp.Patch = some (instancePatches exampleInstances
        (cleanName injectPod.ObjectMeta.Namespace) (resolvedIndex injectPod)) :=
  ⟨by decide, by decide,
    (mutate_annotation_spellings (fun _ => .ok injectPod) exampleInstances exampleRequest
      injectPod rfl (by decide) (by decide)).1.mpr ⟨"true", by decide, by decide⟩⟩

/-- C20: the parse error takes precedence over the override. For a pod that
carries the classification label protected-b and an injection annotation that
is not a boolean, `mutate` returns the annotation-parse error (with the
default response), not the silent response without injection: the annotation
is parsed before the label is read. This holds whatever the containers are. -/
theorem mutate_parse_error_before_override (unmarshal : String → Except GoError Pod)
    (instances : List Instance) (request : AdmissionRequest) (pod : Pod) (val : String)
    (hdec : unmarshal request.Raw = .ok pod)
    (hcls : pod.ObjectMeta.Labels.lookup "data.statcan.gc.ca/classification"
      = some "protected-b")
    (hann : pod.ObjectMeta.Annotations.lookup "data.statcan.gc.ca/inject-boathouse" = some val)
    (hval : val ∉ ["1", "t", "T", "TRUE", "true", "True",
      "0", "f", "F", "FALSE", "false", "False"]) :
    mutate unmarshal instances request =
      .done (defaultResponse request, some (.wrapped
        "unable to decode data.statcan.gc.ca/boathouse-inject annotation "
        (.syntaxError "ParseBool" val))) ∧
    mutate unmarshal instances request ≠ .done (defaultResponse request, none) := by
  -- the label plays no part: the run returns before the label is read
  have _ := hcls
  have h := mutate_parse_error unmarshal instances request pod val _ hdec hann
    (parseBool_error_of_not_mem val hval)
  refine ⟨h, ?_⟩
  rw [h]
  intro h2
  cases h2

/-- Witness of C20: a Protected B pod whose annotation is yes. -/
theorem mutate_parse_error_before_override_witness :
    protectedMalformedPod.ObjectMeta.Labels.lookup "data.statcan.gc.ca/classification"
      = some "protected-b" ∧
    protectedMalformedPod.ObjectMeta.Annotations.lookup "data.statcan.gc.ca/inject-boathouse"
      = some "yes" ∧
    mutate (fun _ => .ok protectedMalformedPod) exampleInstances exampleRequest =
      .done (defaultResponse exampleRequest, some (.wrapped
        "unable to decode data.statcan.gc.ca/boathouse-inject annotation "
        (.syntaxError "ParseBool" "yes"))) ∧
    mutate (fun _ => .ok protectedMalformedPod) exampleInstances exampleRequest
      ≠ .done (defaultResponse exampleRequest, none) :=
  ⟨by decide, by decide,
    mutate_parse_error_before_override (fun _ => .ok protectedMalformedPod) exampleInstances
      exampleRequest protectedMalformedPod "yes" rfl (by decide) (by decide) (by decide)⟩

end GoofysInjector
